import Mathlib

/-!
Shallow embedding of the settings registry of python-lnp
(`core/settings.py`, class `DFConfiguration`).

Text is modelled as `List Char` (the file is read with a fixed
single-byte encoding, so one byte corresponds to one character).
File systems are association lists from filename to file text.
Python `dict`s are insertion-ordered association lists.
Fallible Python code (KeyError, ValueError, IOError, IndexError)
is modelled with `Option`: `none` means an exception was raised.

The regular expressions used by the source are always of the two
fixed shapes `\[FIELD:(.+?)\]` and `\[(.+?):(.+?)\]` with FIELD a
plain token (letters, digits, underscores).  Their exact
leftmost-match, non-greedy semantics over characters is modelled
directly: a value group matches the shortest nonempty run of
non-newline characters that is followed by the literal terminator.
The replacement string of `re.sub` is inserted literally; this is
accurate because the values written by the program in the theorems
below contain no backslash.
-/

/-- `startsW pat s` : `pat` is a prefix of `s`. -/
def startsW : List Char → List Char → Bool
  | [], _ => true
  | _ :: _, [] => false
  | p :: ps, c :: cs => p = c && startsW ps cs

/-- Substring containment, Python `pat in s`. -/
def containsSub (pat : List Char) : List Char → Bool
  | [] => startsW pat []
  | c :: t => startsW pat (c :: t) || containsSub pat t

/-- Remove a literal pat from the front of `s`; `none` if `s` does not start with it. -/
def dropPref : List Char → List Char → Option (List Char)
  | [], s => some s
  | _ :: _, [] => none
  | p :: ps, c :: cs => if p = c then dropPref ps cs else none

/-- Scanning of the tail of a non-greedy value group `(.+?)` after its first
character: consume characters up to the first `]` (success, returning the
consumed characters and the rest after the `]`), failing on a newline
(`.` does not match a newline) or on the end of the text. -/
def scanRest : List Char → Option (List Char × List Char)
  | [] => none
  | c :: t =>
    if c = ']' then some ([], t)
    else if c = '\n' then none
    else
      match scanRest t with
      | some (v, r) => some (c :: v, r)
      | none => none

/-- Non-greedy `(.+?)\]`: at least one non-newline character, then the
shortest continuation up to a `]`.  Returns the captured value and the
text after the closing bracket. -/
def scanValue : List Char → Option (List Char × List Char)
  | [] => none
  | c :: t =>
    if c = '\n' then none
    else
      match scanRest t with
      | some (v, r) => some (c :: v, r)
      | none => none

/-- The literal part `[FIELD:` of the pattern `\[FIELD:(.+?)\]`. -/
def tagLit (F : List Char) : List Char := '[' :: (F ++ [':'])

/-- Match of the pattern `\[F:(.+?)\]` anchored at the start of `s`:
the literal `[F:` followed by a non-greedy value group.  Returns the
captured value and the remainder after the match. -/
def matchTagAt (F s : List Char) : Option (List Char × List Char) :=
  match dropPref (tagLit F) s with
  | some t => scanValue t
  | none => none

/-- `re.search(r'\[F:(.+?)\]', s).group(1)`: leftmost match, first
capture group; `none` when the pattern does not occur. -/
def searchTag (F : List Char) : List Char → Option (List Char)
  | [] => none
  | c :: t =>
    match matchTagAt F (c :: t) with
    | some (v, _) => some v
    | none => searchTag F t

/-- Fuel-driven body of `re.sub(r'\[F:(.+?)\]', repl, s)`: replace every
non-overlapping match, scanning left to right.  The fuel only serves
termination; `s.length` steps always suffice. -/
def subTagAux (F repl : List Char) : Nat → List Char → List Char
  | 0, s => s
  | fuel + 1, s =>
    match matchTagAt F s with
    | some (_, rem) => repl ++ subTagAux F repl fuel rem
    | none =>
      match s with
      | [] => []
      | c :: t => c :: subTagAux F repl fuel t

/-- `re.sub(r'\[F:(.+?)\]', repl, s)` with a literal replacement string:
every non-overlapping occurrence is replaced (`count = 0`). -/
def subTag (F repl s : List Char) : List Char := subTagAux F repl s.length s

/-- Backtracking for the two-group pattern `\[(.+?):(.+?)\]` after the
opening bracket: `acc` is the name collected so far.  The shortest name
is tried first: close the name at the current `:` if the value group can
then match, otherwise extend the name by the current character (`.` does
not match a newline). -/
def pairGo (acc : List Char) : List Char → Option (List Char × List Char × List Char)
  | [] => none
  | c :: t =>
    if c = ':' ∧ acc ≠ [] then
      match scanValue t with
      | some (v, rem) => some (acc, v, rem)
      | none => if c = '\n' then none else pairGo (acc ++ [c]) t
    else if c = '\n' then none
    else pairGo (acc ++ [c]) t

/-- Match of `\[(.+?):(.+?)\]` anchored at the start of the text. -/
def matchPairAt : List Char → Option (List Char × List Char × List Char)
  | '[' :: t => pairGo [] t
  | _ => none

/-- Fuel-driven body of `re.findall(r'\[(.+?):(.+?)\]', s)`. -/
def findAllAux : Nat → List Char → List (List Char × List Char)
  | 0, _ => []
  | fuel + 1, s =>
    match matchPairAt s with
    | some (n, v, rem) => (n, v) :: findAllAux fuel rem
    | none =>
      match s with
      | [] => []
      | _ :: t => findAllAux fuel t

/-- `re.findall(r'\[(.+?):(.+?)\]', s)`: the (name, value) pairs of all
non-overlapping matches, left to right. -/
def findAllPairs (s : List Char) : List (List Char × List Char) := findAllAux s.length s

/-- Fuel-driven body of Python `str.replace` (all occurrences, left to
right).  The empty-pattern case never arises in the source: the patterns
are always `[FIELD]` or `!FIELD!`. -/
def strReplaceAux (pat repl : List Char) : Nat → List Char → List Char
  | 0, s => s
  | fuel + 1, s =>
    if startsW pat s && !pat.isEmpty then repl ++ strReplaceAux pat repl fuel (s.drop pat.length)
    else
      match s with
      | [] => []
      | c :: t => c :: strReplaceAux pat repl fuel t

/-- Python `s.replace(pat, repl)` for a nonempty `pat`. -/
def pyReplace (pat repl s : List Char) : List Char := strReplaceAux pat repl s.length s

/-- Python string `<`: lexicographic comparison by code point, a proper
prefix is smaller. -/
def pyStrLtL : List Char → List Char → Bool
  | [], [] => false
  | [], _ :: _ => true
  | _ :: _, [] => false
  | a :: as, b :: bs =>
    if a.toNat < b.toNat then true
    else if b.toNat < a.toNat then false
    else pyStrLtL as bs

/-- Python `a < b` on strings. -/
def pyLt (a b : String) : Bool := pyStrLtL a.data b.data

/-- Python `a <= b` on strings. -/
def pyLe (a b : String) : Bool := a = b || pyLt a b

/-- Insertion-ordered association-list lookup, Python `d[k]` / `k in d`. -/
def dlookup {α β : Type} [DecidableEq α] : List (α × β) → α → Option β
  | [], _ => none
  | (k, v) :: t, key => if k = key then some v else dlookup t key

/-- Insertion-ordered association-list update, Python `d[k] = v`:
replace in place when the key exists, otherwise append. -/
def dinsert {α β : Type} [DecidableEq α] : List (α × β) → α → β → List (α × β)
  | [], key, val => [(key, val)]
  | (k, v) :: t, key, val => if k = key then (key, val) :: t else (k, v) :: dinsert t key val

/-- Python `k in d`. -/
def dcontains {α β : Type} [DecidableEq α] (l : List (α × β)) (k : α) : Bool :=
  (dlookup l k).isSome

/-- The `values` argument of `create_option`: `None`, a tuple of strings,
or one of the three marker objects `_disabled`, `_force_bool`,
`_negated_bool`. -/
inductive Policy where
  | unconstrained
  | enumerated (vals : List String)
  | disabled
  | forceBool
  | negatedBool
deriving DecidableEq

/-- The version descriptor handed to the constructor (`df_info`). -/
structure DFInfo where
  version : String
  variations : List String
deriving DecidableEq

/-- The mutable state of a `DFConfiguration` instance. -/
structure DFConfig where
  df_info : DFInfo
  settings : List (String × String)
  options : List (String × Policy)
  field_names : List (String × String)
  inverse_field_names : List (String × String)
  files : List (String × List String)
  in_files : List (List String × List String)
deriving DecidableEq

/-- A file system: filename to file text. -/
abbrev FS : Type := List (String × String)

/-- The `["YES","NO"][["NO","YES"].index(value)]` idiom: swap YES and NO,
raising ValueError (`none`) on any other value. -/
def negSwap (v : String) : Option String :=
  if v = "NO" then some "YES" else if v = "YES" then some "NO" else none

/-- The version compatibility table of version_has_option: key = tag name, first value = first version with the tag, second value (when present) = first version without the tag. -/
def versionData : List (String × (String × Option String)) := [
  ("EXTENDED_ASCII", ("0.21.93.19a", some "0.21.104.19d")),
  ("BLACK_B", ("0.21.93.19a", some "0.31.04")),
  ("BLACK_G", ("0.21.93.19a", some "0.31.04")),
  ("BLACK_R", ("0.21.93.19a", some "0.31.04")),
  ("BLUE_B", ("0.21.93.19a", some "0.31.04")),
  ("BLUE_G", ("0.21.93.19a", some "0.31.04")),
  ("BLUE_R", ("0.21.93.19a", some "0.31.04")),
  ("BROWN_B", ("0.21.93.19a", some "0.31.04")),
  ("BROWN_G", ("0.21.93.19a", some "0.31.04")),
  ("BROWN_R", ("0.21.93.19a", some "0.31.04")),
  ("CYAN_B", ("0.21.93.19a", some "0.31.04")),
  ("CYAN_G", ("0.21.93.19a", some "0.31.04")),
  ("CYAN_R", ("0.21.93.19a", some "0.31.04")),
  ("DGRAY_B", ("0.21.93.19a", some "0.31.04")),
  ("DGRAY_G", ("0.21.93.19a", some "0.31.04")),
  ("DGRAY_R", ("0.21.93.19a", some "0.31.04")),
  ("GREEN_B", ("0.21.93.19a", some "0.31.04")),
  ("GREEN_G", ("0.21.93.19a", some "0.31.04")),
  ("GREEN_R", ("0.21.93.19a", some "0.31.04")),
  ("LBLUE_B", ("0.21.93.19a", some "0.31.04")),
  ("LBLUE_G", ("0.21.93.19a", some "0.31.04")),
  ("LBLUE_R", ("0.21.93.19a", some "0.31.04")),
  ("LCYAN_B", ("0.21.93.19a", some "0.31.04")),
  ("LCYAN_G", ("0.21.93.19a", some "0.31.04")),
  ("LCYAN_R", ("0.21.93.19a", some "0.31.04")),
  ("LGRAY_B", ("0.21.93.19a", some "0.31.04")),
  ("LGRAY_G", ("0.21.93.19a", some "0.31.04")),
  ("LGRAY_R", ("0.21.93.19a", some "0.31.04")),
  ("LGREEN_B", ("0.21.93.19a", some "0.31.04")),
  ("LGREEN_G", ("0.21.93.19a", some "0.31.04")),
  ("LGREEN_R", ("0.21.93.19a", some "0.31.04")),
  ("LMAGENTA_B", ("0.21.93.19a", some "0.31.04")),
  ("LMAGENTA_G", ("0.21.93.19a", some "0.31.04")),
  ("LMAGENTA_R", ("0.21.93.19a", some "0.31.04")),
  ("LRED_B", ("0.21.93.19a", some "0.31.04")),
  ("LRED_G", ("0.21.93.19a", some "0.31.04")),
  ("LRED_R", ("0.21.93.19a", some "0.31.04")),
  ("MAGENTA_B", ("0.21.93.19a", some "0.31.04")),
  ("MAGENTA_G", ("0.21.93.19a", some "0.31.04")),
  ("MAGENTA_R", ("0.21.93.19a", some "0.31.04")),
  ("RED_B", ("0.21.93.19a", some "0.31.04")),
  ("RED_G", ("0.21.93.19a", some "0.31.04")),
  ("RED_R", ("0.21.93.19a", some "0.31.04")),
  ("WHITE_B", ("0.21.93.19a", some "0.31.04")),
  ("WHITE_G", ("0.21.93.19a", some "0.31.04")),
  ("WHITE_R", ("0.21.93.19a", some "0.31.04")),
  ("YELLOW_B", ("0.21.93.19a", some "0.31.04")),
  ("YELLOW_G", ("0.21.93.19a", some "0.31.04")),
  ("YELLOW_R", ("0.21.93.19a", some "0.31.04")),
  ("DISPLAY_LENGTH", ("0.21.93.19a", none)),
  ("FONT", ("0.21.93.19a", none)),
  ("FULLFONT", ("0.21.93.19a", none)),
  ("FULLSCREENX", ("0.21.93.19a", none)),
  ("FULLSCREENY", ("0.21.93.19a", none)),
  ("MORE", ("0.21.93.19a", none)),
  ("VARIED_GROUND_TILES", ("0.21.93.19a", none)),
  ("WINDOWEDX", ("0.21.93.19a", none)),
  ("WINDOWEDY", ("0.21.93.19a", none)),
  ("INTRO", ("0.21.100.19a", none)),
  ("SOUND", ("0.21.100.19a", none)),
  ("KEY_HOLD_MS", ("0.21.101.19a", none)),
  ("NICKNAME_ADVENTURE", ("0.21.102.19a", none)),
  ("NICKNAME_DWARF", ("0.21.102.19a", none)),
  ("NICKNAME_LEGENDS", ("0.21.102.19a", none)),
  ("WINDOWED", ("0.21.102.19a", none)),
  ("ENGRAVINGS_START_OBSCURED", ("0.21.104.19d", none)),
  ("MOUSE", ("0.21.104.21a", none)),
  ("MOUSE_PICTURE", ("0.21.104.21a", none)),
  ("ADVENTURER_TRAPS", ("0.22.110.23a", none)),
  ("BLACK_SPACE", ("0.22.120.23a", none)),
  ("GRAPHICS", ("0.22.120.23a", none)),
  ("GRAPHICS_BLACK_SPACE", ("0.22.120.23a", none)),
  ("GRAPHICS_FONT", ("0.22.120.23a", none)),
  ("GRAPHICS_FULLFONT", ("0.22.120.23a", none)),
  ("GRAPHICS_FULLSCREENX", ("0.22.120.23a", none)),
  ("GRAPHICS_FULLSCREENY", ("0.22.120.23a", none)),
  ("GRAPHICS_WINDOWEDX", ("0.22.120.23a", none)),
  ("GRAPHICS_WINDOWEDY", ("0.22.120.23a", none)),
  ("FPS", ("0.22.121.23b", none)),
  ("TEMPERATURE", ("0.22.121.23b", none)),
  ("WEATHER", ("0.22.121.23b", none)),
  ("FPS_CAP", ("0.23.130.23a", none)),
  ("POPULATION_CAP", ("0.23.130.23a", none)),
  ("ADVENTURER_ALWAYS_CENTER", ("0.27.169.32a", none)),
  ("ADVENTURER_Z_VIEWS", ("0.27.169.32a", none)),
  ("AQUIFER", ("0.27.169.32a", none)),
  ("ARTIFACTS", ("0.27.169.32a", none)),
  ("AUTOBACKUP", ("0.27.169.32a", none)),
  ("AUTOSAVE", ("0.27.169.32a", none)),
  ("CAVEINS", ("0.27.169.32a", none)),
  ("CHASM", ("0.27.169.32a", none)),
  ("COFFIN_NO_PETS_DEFAULT", ("0.27.169.32a", none)),
  ("ECONOMY", ("0.27.169.32a", none)),
  ("G_FPS_CAP", ("0.27.169.32a", none)),
  ("INITIAL_SAVE", ("0.27.169.32a", none)),
  ("INVADERS", ("0.27.169.32a", none)),
  ("LOG_MAP_REJECTS", ("0.27.169.32a", none)),
  ("PATH_COST", ("0.27.169.32a", none)),
  ("RECENTER_INTERFACE_SHUTDOWN_MS", ("0.27.169.32a", none)),
  ("SHOW_FLOW_AMOUNTS", ("0.27.169.32a", none)),
  ("SHOW_IMP_QUALITY", ("0.27.169.32a", none)),
  ("SKY", ("0.27.169.32a", none)),
  ("TEXTURE_PARAM", ("0.27.169.32a", none)),
  ("TOPMOST", ("0.27.169.32a", none)),
  ("VOLUME", ("0.27.169.32a", none)),
  ("VSYNC", ("0.27.169.32a", none)),
  ("PRIORITY", ("0.27.169.33c", none)),
  ("EMBARK_RECTANGLE", ("0.27.169.33g", none)),
  ("PAUSE_ON_LOAD", ("0.27.169.33g", none)),
  ("BABY_CHILD_CAP", ("0.27.176.38a", none)),
  ("ZERO_RENT", ("0.27.176.38a", none)),
  ("AUTOSAVE_PAUSE", ("0.27.176.38b", none)),
  ("EMBARK_WARNING_ALWAYS", ("0.27.176.38b", none)),
  ("IDLERS", ("0.28.181.39a", none)),
  ("SHOW_ALL_HISTORY_IN_DWARF_MODE", ("0.28.181.39a", none)),
  ("SHOW_EMBARK_CHASM", ("0.28.181.39d", some "0.31.01")),
  ("SHOW_EMBARK_M_PIPE", ("0.28.181.39d", some "0.31.01")),
  ("SHOW_EMBARK_M_POOL", ("0.28.181.39d", some "0.31.01")),
  ("SHOW_EMBARK_OTHER", ("0.28.181.39d", some "0.31.01")),
  ("SHOW_EMBARK_PIT", ("0.28.181.39d", some "0.31.01")),
  ("SHOW_EMBARK_POOL", ("0.28.181.39d", some "0.31.01")),
  ("SHOW_EMBARK_RIVER", ("0.28.181.39d", some "0.31.01")),
  ("SHOW_EMBARK_TUNNEL", ("0.28.181.39d", none)),
  ("GRID", ("0.28.181.39f", none)),
  ("STORE_DIST_BARREL_COMBINE", ("0.28.181.40a", none)),
  ("STORE_DIST_BIN_COMBINE", ("0.28.181.40a", none)),
  ("STORE_DIST_BUCKET_COMBINE", ("0.28.181.40a", none)),
  ("STORE_DIST_ITEM_DECREASE", ("0.28.181.40a", none)),
  ("STORE_DIST_SEED_COMBINE", ("0.28.181.40a", none)),
  ("FULLGRID", ("0.28.181.40b", none)),
  ("PARTIAL_PRINT", ("0.28.181.40b", none)),
  ("COMPRESSED_SAVES", ("0.31.01", none)),
  ("TESTING_ARENA", ("0.31.01", none)),
  ("WOUND_COLOR_BROKEN", ("0.31.01", none)),
  ("WOUND_COLOR_FUNCTION_LOSS", ("0.31.01", none)),
  ("WOUND_COLOR_INHIBITED", ("0.31.01", none)),
  ("WOUND_COLOR_MINOR", ("0.31.01", none)),
  ("WOUND_COLOR_MISSING", ("0.31.01", none)),
  ("WOUND_COLOR_NONE", ("0.31.01", none)),
  ("PILLAR_TILE", ("0.31.08", none)),
  ("ZOOM_SPEED", ("0.31.13", none)),
  ("ARB_SYNC", ("0.31.13", none)),
  ("KEY_REPEAT_ACCEL_LIMIT", ("0.31.13", none)),
  ("KEY_REPEAT_ACCEL_START", ("0.31.13", none)),
  ("KEY_REPEAT_MS", ("0.31.13", none)),
  ("MACRO_MS", ("0.31.13", none)),
  ("PRINT_MODE", ("0.31.13", none)),
  ("RESIZABLE", ("0.31.13", none)),
  ("SINGLE_BUFFER", ("0.31.13", none)),
  ("TRUETYPE", ("0.31.13", none)),
  ("WALKING_SPREADS_SPATTER_ADV", ("0.31.16", none)),
  ("WALKING_SPREADS_SPATTER_DWF", ("0.31.16", none)),
  ("SET_LABOR_LISTS", ("0.34.03", none)),
  ("TRACK_E", ("0.34.08", none)),
  ("TRACK_EW", ("0.34.08", none)),
  ("TRACK_N", ("0.34.08", none)),
  ("TRACK_NE", ("0.34.08", none)),
  ("TRACK_NEW", ("0.34.08", none)),
  ("TRACK_NS", ("0.34.08", none)),
  ("TRACK_NSE", ("0.34.08", none)),
  ("TRACK_NSEW", ("0.34.08", none)),
  ("TRACK_NSW", ("0.34.08", none)),
  ("TRACK_NW", ("0.34.08", none)),
  ("TRACK_RAMP_E", ("0.34.08", none)),
  ("TRACK_RAMP_EW", ("0.34.08", none)),
  ("TRACK_RAMP_N", ("0.34.08", none)),
  ("TRACK_RAMP_NE", ("0.34.08", none)),
  ("TRACK_RAMP_NEW", ("0.34.08", none)),
  ("TRACK_RAMP_NS", ("0.34.08", none)),
  ("TRACK_RAMP_NSE", ("0.34.08", none)),
  ("TRACK_RAMP_NSEW", ("0.34.08", none)),
  ("TRACK_RAMP_NSW", ("0.34.08", none)),
  ("TRACK_RAMP_NW", ("0.34.08", none)),
  ("TRACK_RAMP_S", ("0.34.08", none)),
  ("TRACK_RAMP_SE", ("0.34.08", none)),
  ("TRACK_RAMP_SEW", ("0.34.08", none)),
  ("TRACK_RAMP_SW", ("0.34.08", none)),
  ("TRACK_RAMP_W", ("0.34.08", none)),
  ("TRACK_S", ("0.34.08", none)),
  ("TRACK_SE", ("0.34.08", none)),
  ("TRACK_SEW", ("0.34.08", none)),
  ("TRACK_SW", ("0.34.08", none)),
  ("TRACK_W", ("0.34.08", none)),
  ("FORTRESS_SEED_CAP", ("0.40.01", none)),
  ("SPECIFIC_SEED_CAP", ("0.40.01", none)),
  ("TREE_BRANCH_EW", ("0.40.01", none)),
  ("TREE_BRANCH_EW_DEAD", ("0.40.01", none)),
  ("TREE_BRANCH_NE", ("0.40.01", none)),
  ("TREE_BRANCH_NE_DEAD", ("0.40.01", none)),
  ("TREE_BRANCH_NEW", ("0.40.01", none)),
  ("TREE_BRANCH_NEW_DEAD", ("0.40.01", none)),
  ("TREE_BRANCH_NS", ("0.40.01", none)),
  ("TREE_BRANCH_NS_DEAD", ("0.40.01", none)),
  ("TREE_BRANCH_NSE", ("0.40.01", none)),
  ("TREE_BRANCH_NSE_DEAD", ("0.40.01", none)),
  ("TREE_BRANCH_NSEW", ("0.40.01", none)),
  ("TREE_BRANCH_NSEW_DEAD", ("0.40.01", none)),
  ("TREE_BRANCH_NSW", ("0.40.01", none)),
  ("TREE_BRANCH_NSW_DEAD", ("0.40.01", none)),
  ("TREE_BRANCH_NW", ("0.40.01", none)),
  ("TREE_BRANCH_NW_DEAD", ("0.40.01", none)),
  ("TREE_BRANCH_SE", ("0.40.01", none)),
  ("TREE_BRANCH_SE_DEAD", ("0.40.01", none)),
  ("TREE_BRANCH_SEW", ("0.40.01", none)),
  ("TREE_BRANCH_SEW_DEAD", ("0.40.01", none)),
  ("TREE_BRANCH_SW", ("0.40.01", none)),
  ("TREE_BRANCH_SW_DEAD", ("0.40.01", none)),
  ("TREE_BRANCHES", ("0.40.01", none)),
  ("TREE_BRANCHES_DEAD", ("0.40.01", none)),
  ("TREE_CAP_FLOOR1", ("0.40.01", none)),
  ("TREE_CAP_FLOOR1_DEAD", ("0.40.01", none)),
  ("TREE_CAP_FLOOR2", ("0.40.01", none)),
  ("TREE_CAP_FLOOR2_DEAD", ("0.40.01", none)),
  ("TREE_CAP_FLOOR3", ("0.40.01", none)),
  ("TREE_CAP_FLOOR3_DEAD", ("0.40.01", none)),
  ("TREE_CAP_FLOOR4", ("0.40.01", none)),
  ("TREE_CAP_FLOOR4_DEAD", ("0.40.01", none)),
  ("TREE_CAP_PILLAR", ("0.40.01", none)),
  ("TREE_CAP_PILLAR_DEAD", ("0.40.01", none)),
  ("TREE_CAP_RAMP", ("0.40.01", none)),
  ("TREE_CAP_RAMP_DEAD", ("0.40.01", none)),
  ("TREE_CAP_WALL_E", ("0.40.01", none)),
  ("TREE_CAP_WALL_E_DEAD", ("0.40.01", none)),
  ("TREE_CAP_WALL_N", ("0.40.01", none)),
  ("TREE_CAP_WALL_N_DEAD", ("0.40.01", none)),
  ("TREE_CAP_WALL_NE", ("0.40.01", none)),
  ("TREE_CAP_WALL_NE_DEAD", ("0.40.01", none)),
  ("TREE_CAP_WALL_NW", ("0.40.01", none)),
  ("TREE_CAP_WALL_NW_DEAD", ("0.40.01", none)),
  ("TREE_CAP_WALL_S", ("0.40.01", none)),
  ("TREE_CAP_WALL_S_DEAD", ("0.40.01", none)),
  ("TREE_CAP_WALL_SE", ("0.40.01", none)),
  ("TREE_CAP_WALL_SE_DEAD", ("0.40.01", none)),
  ("TREE_CAP_WALL_SW", ("0.40.01", none)),
  ("TREE_CAP_WALL_SW_DEAD", ("0.40.01", none)),
  ("TREE_CAP_WALL_W", ("0.40.01", none)),
  ("TREE_CAP_WALL_W_DEAD", ("0.40.01", none)),
  ("TREE_ROOT_SLOPING", ("0.40.01", none)),
  ("TREE_ROOT_SLOPING_DEAD", ("0.40.01", none)),
  ("TREE_ROOTS", ("0.40.01", none)),
  ("TREE_ROOTS_DEAD", ("0.40.01", none)),
  ("TREE_SMOOTH_BRANCHES", ("0.40.01", none)),
  ("TREE_SMOOTH_BRANCHES_DEAD", ("0.40.01", none)),
  ("TREE_TRUNK_BRANCH_E", ("0.40.01", none)),
  ("TREE_TRUNK_BRANCH_E_DEAD", ("0.40.01", none)),
  ("TREE_TRUNK_BRANCH_N", ("0.40.01", none)),
  ("TREE_TRUNK_BRANCH_N_DEAD", ("0.40.01", none)),
  ("TREE_TRUNK_BRANCH_S", ("0.40.01", none)),
  ("TREE_TRUNK_BRANCH_S_DEAD", ("0.40.01", none)),
  ("TREE_TRUNK_BRANCH_W", ("0.40.01", none)),
  ("TREE_TRUNK_BRANCH_W_DEAD", ("0.40.01", none)),
  ("TREE_TRUNK_E", ("0.40.01", none)),
  ("TREE_TRUNK_E_DEAD", ("0.40.01", none)),
  ("TREE_TRUNK_EW", ("0.40.01", none)),
  ("TREE_TRUNK_EW_DEAD", ("0.40.01", none)),
  ("TREE_TRUNK_INTERIOR", ("0.40.01", none)),
  ("TREE_TRUNK_INTERIOR_DEAD", ("0.40.01", none)),
  ("TREE_TRUNK_N", ("0.40.01", none)),
  ("TREE_TRUNK_N_DEAD", ("0.40.01", none)),
  ("TREE_TRUNK_NE", ("0.40.01", none)),
  ("TREE_TRUNK_NE_DEAD", ("0.40.01", none)),
  ("TREE_TRUNK_NEW", ("0.40.01", none)),
  ("TREE_TRUNK_NEW_DEAD", ("0.40.01", none)),
  ("TREE_TRUNK_NS", ("0.40.01", none)),
  ("TREE_TRUNK_NS_DEAD", ("0.40.01", none)),
  ("TREE_TRUNK_NSE", ("0.40.01", none)),
  ("TREE_TRUNK_NSE_DEAD", ("0.40.01", none)),
  ("TREE_TRUNK_NSEW", ("0.40.01", none)),
  ("TREE_TRUNK_NSEW_DEAD", ("0.40.01", none)),
  ("TREE_TRUNK_NSW", ("0.40.01", none)),
  ("TREE_TRUNK_NSW_DEAD", ("0.40.01", none)),
  ("TREE_TRUNK_NW", ("0.40.01", none)),
  ("TREE_TRUNK_NW_DEAD", ("0.40.01", none)),
  ("TREE_TRUNK_PILLAR", ("0.40.01", none)),
  ("TREE_TRUNK_PILLAR_DEAD", ("0.40.01", none)),
  ("TREE_TRUNK_S", ("0.40.01", none)),
  ("TREE_TRUNK_S_DEAD", ("0.40.01", none)),
  ("TREE_TRUNK_SE", ("0.40.01", none)),
  ("TREE_TRUNK_SE_DEAD", ("0.40.01", none)),
  ("TREE_TRUNK_SEW", ("0.40.01", none)),
  ("TREE_TRUNK_SEW_DEAD", ("0.40.01", none)),
  ("TREE_TRUNK_SLOPING", ("0.40.01", none)),
  ("TREE_TRUNK_SLOPING_DEAD", ("0.40.01", none)),
  ("TREE_TRUNK_SW", ("0.40.01", none)),
  ("TREE_TRUNK_SW_DEAD", ("0.40.01", none)),
  ("TREE_TRUNK_W", ("0.40.01", none)),
  ("TREE_TRUNK_W_DEAD", ("0.40.01", none)),
  ("TREE_TWIGS", ("0.40.01", none)),
  ("TREE_TWIGS_DEAD", ("0.40.01", none)),
  ("STRICT_POPULATION_CAP", ("0.40.05", none)),
  ("POST_PREPARE_EMBARK_CONFIRMATION", ("0.40.09", none)),
  ("GRAZE_COEFFICIENT", ("0.40.13", none))]

/-- `DFConfiguration.version_has_option`.  An internal name (first
character equal to its own lowercase form) always passes; an unknown
uppercase tag name raises KeyError (`none`); an empty name raises
IndexError (`none`).  The version test is `intro <= version` or the
chained `intro <= version < removed`, with Python string comparison. -/
def version_has_option (cfg : DFConfig) (option_name0 : String) : Option Bool :=
  let option_name :=
    match dlookup cfg.field_names option_name0 with
    | some f => f
    | none => option_name0
  match option_name.data with
  | [] => none
  | c :: _ =>
    if c = c.toLower then some true
    else
      match dlookup versionData option_name with
      | none => none
      | some (intro, some removed) =>
        some (pyLe intro cfg.df_info.version && pyLt cfg.df_info.version removed)
      | some (intro, none) => some (pyLe intro cfg.df_info.version)

/-- `DFConfiguration.create_option`.  A `name` already present in
`settings` or present as a key of `inverse_field_names` is a silent
no-op.  `field_names[name]` is recorded before the version check, so
the check sees the updated mapping.  An unsupported field stops after
recording the field name. -/
def create_option (cfg : DFConfig) (name field_name default : String)
    (values : Policy) (files : List String) : Option DFConfig :=
  if dcontains cfg.settings name || dcontains cfg.inverse_field_names name then some cfg
  else
    let cfg1 := { cfg with field_names := dinsert cfg.field_names name field_name }
    match version_has_option cfg1 field_name with
    | none => none
    | some false => some cfg1
    | some true =>
      let cfg2 := { cfg1 with
        settings := dinsert cfg1.settings name default,
        options := dinsert cfg1.options name values }
      let cfg3 :=
        if field_name ≠ name then
          { cfg2 with inverse_field_names := dinsert cfg2.inverse_field_names field_name name }
        else cfg2
      let cfg4 := { cfg3 with files := dinsert cfg3.files name files }
      let prev := (dlookup cfg4.in_files files).getD []
      some { cfg4 with in_files := dinsert cfg4.in_files files (prev ++ [name]) }

/-- `DFConfiguration.set_value`: unconditional overwrite, no validation. -/
def set_value (cfg : DFConfig) (name value : String) : DFConfig :=
  { cfg with settings := dinsert cfg.settings name value }

/-- Cycling within an explicit sequence: `items[0]` when `current` is
not a member (IndexError, hence `none`, on an empty sequence),
otherwise `items[(items.index(current) + 1) % len(items)]`. -/
def cycle_seq (current : String) (items : List String) : Option String :=
  if current ∈ items then items.get? ((items.indexOf current + 1) % items.length)
  else items.head?

/-- `DFConfiguration.cycle_list`.  `None` returns `current` unchanged;
the three marker objects behave as the tuple `("YES", "NO")`. -/
def cycle_list (current : String) (items : Policy) : Option String :=
  match items with
  | Policy.unconstrained => some current
  | Policy.enumerated vs => cycle_seq current vs
  | _ => cycle_seq current ["YES", "NO"]

/-- `DFConfiguration.cycle_item`. -/
def cycle_item (cfg : DFConfig) (name : String) : Option DFConfig :=
  match dlookup cfg.settings name with
  | none => none
  | some cur =>
    match dlookup cfg.options name with
    | none => none
    | some items =>
      match cycle_list cur items with
      | none => none
      | some v => some { cfg with settings := dinsert cfg.settings name v }

/-- One iteration of the field loop of `read_file`: resolve the field
through `inverse_field_names`, then read it from `text` according to its
policy.  A missing match only prints a warning and leaves the stored
value unchanged. -/
def read_field (cfg : DFConfig) (text : List Char) (field0 : String) : Option DFConfig :=
  let field :=
    match dlookup cfg.inverse_field_names field0 with
    | some f => f
    | none => field0
  match dlookup cfg.options field with
  | none => none
  | some Policy.disabled =>
    match dlookup cfg.field_names field with
    | none => none
    | some fn =>
      if containsSub ('[' :: (fn.data ++ [']'])) text then
        some { cfg with settings := dinsert cfg.settings field "YES" }
      else some cfg
  | some opt =>
    match dlookup cfg.field_names field with
    | none => none
    | some fn =>
      match searchTag fn.data text with
      | some v =>
        if opt = Policy.forceBool ∧ v ≠ "NO".data then
          some { cfg with settings := dinsert cfg.settings field "YES" }
        else
          match (if opt = Policy.negatedBool then negSwap (String.mk v) else some (String.mk v)) with
          | some value => some { cfg with settings := dinsert cfg.settings field value }
          | none => none
      | none => some cfg

/-- The field loop of `read_file`. -/
def read_fields (text : List Char) : DFConfig → List String → Option DFConfig
  | cfg, [] => some cfg
  | cfg, f :: rest =>
    match read_field cfg text f with
    | some cfg2 => read_fields text cfg2 rest
    | none => none

/-- The auto-add loop of `read_file`:
`create_option(match[0], match[0], match[1], None, (filename,))`
for every pair found by `re.findall`. -/
def auto_add_all (filename : String) : DFConfig → List (List Char × List Char) → Option DFConfig
  | cfg, [] => some cfg
  | cfg, (n, v) :: rest =>
    match create_option cfg (String.mk n) (String.mk n) (String.mk v)
        Policy.unconstrained [filename] with
    | some cfg2 => auto_add_all filename cfg2 rest
    | none => none

/-- `DFConfiguration.read_file`.  Opening a missing file raises IOError
(`none`); with `auto_add` every `[name:value]` pair in the text is first
registered; then the requested fields are read. -/
def read_file (fs : FS) (cfg : DFConfig) (filename : String)
    (fields : List String) (auto_add : Bool) : Option DFConfig :=
  match dlookup fs filename with
  | none => none
  | some text =>
    match (if auto_add then auto_add_all filename cfg (findAllPairs text.data) else some cfg) with
    | some cfg2 => read_fields text.data cfg2 fields
    | none => none

/-- `DFConfiguration.read_value` (static): value of the first
`[field:value]` token of the file, `none` when the file cannot be
opened or no such token exists. -/
def read_value (fs : FS) (filename field : String) : Option String :=
  match dlookup fs filename with
  | none => none
  | some text => (searchTag field.data text.data).map String.mk

/-- `DFConfiguration.has_field` (static): the pattern is
`\[field(:.+?)\]`, whose group 1 contains the leading colon, so the
parameter count is one more than the number of colons inside the value.
An unopenable file gives `false`. -/
def has_field (fs : FS) (filename field : String)
    (num_params min_params max_params : Int) : Bool :=
  match dlookup fs filename with
  | none => false
  | some text =>
    match searchTag field.data text.data with
    | none => false
    | some v =>
      let pc : Int := 1 + (v.count ':' : Int)
      if num_params ≠ -1 ∧ pc ≠ num_params then false
      else if min_params ≠ -1 ∧ pc < min_params then false
      else if max_params ≠ -1 ∧ pc > max_params then false
      else true

/-- One iteration of the field loop of `write_file`, transforming the
file text.  A `_disabled` option turns every `[F]` into `!F!` when the
stored value is `"NO"` and every `!F!` into `[F]` otherwise; any other
option substitutes every `[F:...]` token, swapping YES and NO first
when the option is `_negated_bool` (ValueError, hence `none`, on any
other stored value). -/
def write_field (cfg : DFConfig) (text : List Char) (field : String) : Option (List Char) :=
  match dlookup cfg.options field with
  | none => none
  | some Policy.disabled =>
    match dlookup cfg.settings field with
    | none => none
    | some cur =>
      match dlookup cfg.field_names field with
      | none => none
      | some fn =>
        if cur = "NO" then
          some (pyReplace ('[' :: (fn.data ++ [']'])) ('!' :: (fn.data ++ ['!'])) text)
        else
          some (pyReplace ('!' :: (fn.data ++ ['!'])) ('[' :: (fn.data ++ [']'])) text)
  | some opt =>
    match dlookup cfg.settings field with
    | none => none
    | some cur =>
      match (if opt = Policy.negatedBool then negSwap cur else some cur) with
      | none => none
      | some value =>
        match dlookup cfg.field_names field with
        | none => none
        | some fn =>
          some (subTag fn.data (tagLit fn.data ++ value.data ++ [']']) text)

/-- The field loop of `write_file`. -/
def write_fields (cfg : DFConfig) : List Char → List String → Option (List Char)
  | text, [] => some text
  | text, f :: rest =>
    match write_field cfg text f with
    | some t2 => write_fields cfg t2 rest
    | none => none

/-- `DFConfiguration.write_file`: read the whole file (IOError on a
missing file), transform its text field by field, write the whole file
back. -/
def write_file (fs : FS) (cfg : DFConfig) (filename : String)
    (fields : List String) : Option FS :=
  match dlookup fs filename with
  | none => none
  | some text =>
    match write_fields cfg text.data fields with
    | some t2 => some (dinsert fs filename (String.mk t2))
    | none => none

/-- One line written by `create_file` for one field.  Note that the
non-disabled case writes the internal `field` name, not
`field_names[field]`, exactly as the source does. -/
def create_file_line (cfg : DFConfig) (field : String) : Option (List Char) :=
  match dlookup cfg.options field with
  | none => none
  | some Policy.disabled =>
    match dlookup cfg.settings field with
    | none => none
    | some cur =>
      match dlookup cfg.field_names field with
      | none => none
      | some fn =>
        if cur = "NO" then some ('!' :: (fn.data ++ ['!', '\n']))
        else some ('[' :: (fn.data ++ [']', '\n']))
  | some opt =>
    match dlookup cfg.settings field with
    | none => none
    | some cur =>
      match (if opt = Policy.negatedBool then negSwap cur else some cur) with
      | none => none
      | some value => some ('[' :: (field.data ++ (':' :: (value.data ++ [']', '\n']))))

/-- The lines written by `create_file`, concatenated.  `none` when some
field raises; the truncation of the target that Python performs before
the exception is not part of the model, only the success or failure of
the call. -/
def create_file_body (cfg : DFConfig) : List String → Option (List Char)
  | [] => some []
  | f :: rest =>
    match create_file_line cfg f with
    | some l =>
      match create_file_body cfg rest with
      | some ls => some (l ++ ls)
      | none => none
    | none => none

/-- `DFConfiguration.create_file`: write a brand-new file with one
bracketed line per field. -/
def create_file (fs : FS) (cfg : DFConfig) (filename : String)
    (fields : List String) : Option FS :=
  match create_file_body cfg fields with
  | some body => some (dinsert fs filename (String.mk body))
  | none => none

/-! ### Dictionary lemmas -/

theorem dlookup_dinsert_self {α β : Type} [DecidableEq α] (l : List (α × β)) (k : α) (v : β) :
    dlookup (dinsert l k v) k = some v := by
  induction l with
  | nil => simp [dinsert, dlookup]
  | cons hd t ih =>
    obtain ⟨k1, v1⟩ := hd
    by_cases hk : k1 = k
    · subst hk; simp [dinsert, dlookup]
    · simp [dinsert, dlookup, hk, ih]

theorem dlookup_dinsert_ne {α β : Type} [DecidableEq α] (l : List (α × β)) (k k2 : α) (v : β)
    (hne : k2 ≠ k) : dlookup (dinsert l k v) k2 = dlookup l k2 := by
  have hk2 : ¬ k = k2 := fun h => hne h.symm
  induction l with
  | nil => simp [dinsert, dlookup, hk2]
  | cons hd t ih =>
    obtain ⟨k1, v1⟩ := hd
    by_cases hk : k1 = k
    · subst hk; simp [dinsert, dlookup, hk2]
    · simp [dinsert, dlookup, hk, ih]

/-! ### Structure of the non-greedy scanner -/

theorem startsW_iff (p : List Char) : ∀ s, startsW p s = true ↔ ∃ r, s = p ++ r := by
  induction p with
  | nil => intro s; simp [startsW]
  | cons c cs ih =>
    intro s
    cases s with
    | nil => simp [startsW]
    | cons d ds =>
      simp only [startsW, Bool.and_eq_true, decide_eq_true_eq, ih]
      constructor
      · rintro ⟨rfl, r, rfl⟩; exact ⟨r, rfl⟩
      · rintro ⟨r, hr⟩
        injection hr with h1 h2
        exact ⟨h1.symm, r, h2⟩

theorem dropPref_eq_some (p : List Char) : ∀ s t, dropPref p s = some t ↔ s = p ++ t := by
  induction p with
  | nil => intro s t; simp [dropPref, eq_comm]
  | cons c cs ih =>
    intro s t
    cases s with
    | nil => simp [dropPref]
    | cons d ds =>
      by_cases h : c = d
      · subst h
        simp [dropPref, ih, List.cons_append]
      · simp only [dropPref, if_neg h, List.cons_append]
        constructor
        · intro hx; exact Option.noConfusion hx
        · intro hx
          injection hx with h1 _
          exact absurd h1.symm h

theorem dropPref_self_append (p t : List Char) : dropPref p (p ++ t) = some t :=
  (dropPref_eq_some p (p ++ t) t).mpr rfl

theorem scanRest_eq_some : ∀ t v r, scanRest t = some (v, r) →
    t = v ++ ']' :: r ∧ ']' ∉ v ∧ '\n' ∉ v := by
  intro t
  induction t with
  | nil => intro v r h; cases h
  | cons c t ih =>
    intro v r h
    by_cases hc : c = ']'
    · subst hc
      simp only [scanRest, if_pos rfl] at h
      injection h with h; injection h with h1 h2
      subst h1; subst h2
      simp
    · by_cases hn : c = '\n'
      · subst hn; simp [scanRest, hc] at h
      · simp only [scanRest, if_neg hc, if_neg hn] at h
        cases hs : scanRest t with
        | none => rw [hs] at h; cases h
        | some vr =>
          obtain ⟨v0, r0⟩ := vr
          rw [hs] at h
          injection h with h; injection h with h1 h2
          subst h2
          obtain ⟨he, hv1, hv2⟩ := ih v0 r0 hs
          subst he
          subst h1
          refine ⟨rfl, ?_, ?_⟩
          · simp only [List.mem_cons, not_or]
            exact ⟨fun h => hc h.symm, hv1⟩
          · simp only [List.mem_cons, not_or]
            exact ⟨fun h => hn h.symm, hv2⟩

theorem scanRest_append : ∀ v r, ']' ∉ v → '\n' ∉ v → scanRest (v ++ ']' :: r) = some (v, r) := by
  intro v
  induction v with
  | nil => intro r _ _; simp [scanRest]
  | cons c v ih =>
    intro r h1 h2
    simp only [List.mem_cons, not_or] at h1 h2
    have hc : ¬ c = ']' := fun hx => h1.1 hx.symm
    have hn : ¬ c = '\n' := fun hx => h2.1 hx.symm
    simp only [List.cons_append, scanRest, if_neg hc, if_neg hn, List.append_eq,
      ih r h1.2 h2.2]

theorem scanRest_isSome : ∀ a b, '\n' ∉ a → (scanRest (a ++ ']' :: b)).isSome = true := by
  intro a
  induction a with
  | nil => intro b _; simp [scanRest]
  | cons c a ih =>
    intro b h
    simp only [List.mem_cons, not_or] at h
    by_cases hc : c = ']'
    · subst hc; simp [scanRest]
    · have hn : ¬ c = '\n' := fun hx => h.1 hx.symm
      have := ih b h.2
      cases hs : scanRest (a ++ ']' :: b) with
      | none => rw [hs] at this; cases this
      | some vr =>
        obtain ⟨v0, r0⟩ := vr
        simp [List.cons_append, scanRest, hc, hn, hs]

theorem scanValue_eq_some : ∀ s v r, scanValue s = some (v, r) →
    s = v ++ ']' :: r ∧ v ≠ [] ∧ '\n' ∉ v ∧ ']' ∉ v.drop 1 := by
  intro s v r h
  cases s with
  | nil => cases h
  | cons c t =>
    by_cases hn : c = '\n'
    · subst hn; simp [scanValue] at h
    · simp only [scanValue, if_neg hn] at h
      cases hs : scanRest t with
      | none => rw [hs] at h; cases h
      | some vr =>
        obtain ⟨v0, r0⟩ := vr
        rw [hs] at h
        injection h with h; injection h with h1 h2
        subst h2
        obtain ⟨he, hv1, hv2⟩ := scanRest_eq_some t v0 r0 hs
        subst he
        subst h1
        refine ⟨rfl, by simp, ?_, ?_⟩
        · simp only [List.mem_cons, not_or]
          exact ⟨fun h => hn h.symm, hv2⟩
        · simpa using hv1

theorem scanValue_append : ∀ v r, v ≠ [] → '\n' ∉ v → ']' ∉ v.drop 1 →
    scanValue (v ++ ']' :: r) = some (v, r) := by
  intro v r h0 h1 h2
  cases v with
  | nil => exact absurd rfl h0
  | cons c v =>
    simp only [List.mem_cons, not_or] at h1
    simp only [List.drop_succ_cons, List.drop_zero] at h2
    have hn : ¬ c = '\n' := fun hx => h1.1 hx.symm
    simp only [List.cons_append, scanValue, if_neg hn, scanRest_append v r h2 h1.2]

theorem scanValue_isSome : ∀ a b, a ≠ [] → '\n' ∉ a → (scanValue (a ++ ']' :: b)).isSome = true := by
  intro a b h0 h1
  cases a with
  | nil => exact absurd rfl h0
  | cons c a =>
    simp only [List.mem_cons, not_or] at h1
    have hn : ¬ c = '\n' := fun hx => h1.1 hx.symm
    have := scanRest_isSome a b h1.2
    cases hs : scanRest (a ++ ']' :: b) with
    | none => rw [hs] at this; cases this
    | some vr =>
      obtain ⟨v0, r0⟩ := vr
      simp [List.cons_append, scanValue, hn, hs]

/-! ### Structure of the anchored tag match -/

theorem matchTagAt_eq_some {F s : List Char} {v rem : List Char}
    (h : matchTagAt F s = some (v, rem)) :
    s = tagLit F ++ v ++ ']' :: rem ∧ v ≠ [] ∧ '\n' ∉ v ∧ ']' ∉ v.drop 1 := by
  unfold matchTagAt at h
  cases hd : dropPref (tagLit F) s with
  | none => rw [hd] at h; cases h
  | some t =>
    rw [hd] at h
    obtain ⟨ht, hv⟩ := And.intro ((dropPref_eq_some _ _ _).mp hd) (scanValue_eq_some t v rem h)
    obtain ⟨he, h1, h2, h3⟩ := hv
    subst he
    exact ⟨by rw [ht, List.append_assoc], h1, h2, h3⟩

theorem matchTagAt_append (F v rem : List Char) (h0 : v ≠ []) (h1 : '\n' ∉ v)
    (h2 : ']' ∉ v.drop 1) : matchTagAt F (tagLit F ++ v ++ ']' :: rem) = some (v, rem) := by
  unfold matchTagAt
  rw [List.append_assoc, dropPref_self_append]
  exact scanValue_append v rem h0 h1 h2

theorem matchTagAt_isSome (F a b : List Char) (h0 : a ≠ []) (h1 : '\n' ∉ a) :
    (matchTagAt F (tagLit F ++ a ++ ']' :: b)).isSome = true := by
  unfold matchTagAt
  rw [List.append_assoc, dropPref_self_append]
  exact scanValue_isSome a b h0 h1

theorem matchTagAt_nil (F : List Char) : matchTagAt F [] = none := rfl

theorem matchTagAt_rem_length {F s v rem : List Char}
    (h : matchTagAt F s = some (v, rem)) : rem.length < s.length := by
  obtain ⟨he, -, -, -⟩ := matchTagAt_eq_some h
  subst he
  simp [tagLit, List.length_append]
  omega

/-! ### Recursion equations of the replace-all substitution -/

theorem subTagAux_irrel (F repl : List Char) :
    ∀ f1 f2 s, s.length ≤ f1 → s.length ≤ f2 →
      subTagAux F repl f1 s = subTagAux F repl f2 s := by
  intro f1
  induction f1 with
  | zero =>
    intro f2 s h1 _
    have hs : s = [] := List.eq_nil_of_length_eq_zero (Nat.le_zero.mp h1)
    subst hs
    cases f2 with
    | zero => rfl
    | succ g => simp [subTagAux, matchTagAt_nil]
  | succ f ih =>
    intro f2 s h1 h2
    cases f2 with
    | zero =>
      have hs : s = [] := List.eq_nil_of_length_eq_zero (Nat.le_zero.mp h2)
      subst hs
      simp [subTagAux, matchTagAt_nil]
    | succ g =>
      cases hm : matchTagAt F s with
      | some vr =>
        obtain ⟨v, rem⟩ := vr
        have hlen := matchTagAt_rem_length hm
        simp only [subTagAux, hm]
        rw [ih g rem (by omega) (by omega)]
      | none =>
        cases s with
        | nil => simp [subTagAux, hm]
        | cons c t =>
          simp only [subTagAux, hm, List.length_cons] at h1 h2 ⊢
          rw [ih g t (by omega) (by omega)]

theorem subTag_pos {F s v rem : List Char} (repl : List Char)
    (h : matchTagAt F s = some (v, rem)) :
    subTag F repl s = repl ++ subTag F repl rem := by
  cases s with
  | nil => rw [matchTagAt_nil] at h; cases h
  | cons c t =>
    have hlen := matchTagAt_rem_length h
    unfold subTag
    simp only [List.length_cons, subTagAux, h]
    rw [subTagAux_irrel F repl t.length rem.length rem (by simpa using Nat.lt_succ_iff.mp (by simpa using hlen)) (Nat.le_refl _)]

theorem subTag_neg {F : List Char} (repl : List Char) {c : Char} {t : List Char}
    (h : matchTagAt F (c :: t) = none) :
    subTag F repl (c :: t) = c :: subTag F repl t := by
  unfold subTag
  simp only [List.length_cons, subTagAux, h]

theorem searchTag_cons_pos {F : List Char} {c : Char} {t v r : List Char}
    (h : matchTagAt F (c :: t) = some (v, r)) : searchTag F (c :: t) = some v := by
  simp [searchTag, h]

theorem searchTag_cons_neg {F : List Char} {c : Char} {t : List Char}
    (h : matchTagAt F (c :: t) = none) : searchTag F (c :: t) = searchTag F t := by
  simp [searchTag, h]

/-- Decomposition of a text whose leftmost tag match captures `v`:
the prefix before the match, the match itself, and the remainder; the
substitution rewrites the prefix verbatim, replaces the match, and
recurses on the remainder; no match starts inside the prefix. -/
theorem searchTag_decomp (F repl : List Char) :
    ∀ t v, searchTag F t = some v →
      ∃ u rem, t = u ++ tagLit F ++ v ++ ']' :: rem ∧
        v ≠ [] ∧ '\n' ∉ v ∧ ']' ∉ v.drop 1 ∧
        subTag F repl t = u ++ repl ++ subTag F repl rem ∧
        ∀ n, n < u.length → matchTagAt F (u.drop n ++ tagLit F ++ v ++ ']' :: rem) = none := by
  intro t
  induction t with
  | nil => intro v h; cases h
  | cons c t ih =>
    intro v h
    cases hm : matchTagAt F (c :: t) with
    | some vr =>
      obtain ⟨v0, rem⟩ := vr
      rw [searchTag_cons_pos hm] at h
      injection h with h; subst h
      obtain ⟨he, h1, h2, h3⟩ := matchTagAt_eq_some hm
      refine ⟨[], rem, by simpa using he, h1, h2, h3, ?_, ?_⟩
      · rw [subTag_pos repl hm]
        simp
      · intro n hn; cases hn
    | none =>
      rw [searchTag_cons_neg hm] at h
      obtain ⟨u, rem, he, h1, h2, h3, hsub, hno⟩ := ih v h
      refine ⟨c :: u, rem, by simpa using he, h1, h2, h3, ?_, ?_⟩
      · rw [subTag_neg repl hm, hsub]
        simp
      · intro n hn
        cases n with
        | zero =>
          have hrw : (c :: u).drop 0 ++ tagLit F ++ v ++ ']' :: rem = c :: t := by
            rw [List.drop_zero, he]
            simp
          rw [hrw]
          exact hm
        | succ m =>
          have hlt : m < u.length := by
            simpa using Nat.succ_lt_succ_iff.mp (by simpa using hn)
          simpa using hno m hlt

/-- If no match starts inside `u`, scanning `u ++ y` is scanning `y`. -/
theorem searchTag_skip (F : List Char) :
    ∀ u y, (∀ n, n < u.length → matchTagAt F (u.drop n ++ y) = none) →
      searchTag F (u ++ y) = searchTag F y := by
  intro u
  induction u with
  | nil => intro y _; simp
  | cons c u ih =>
    intro y h
    have h0 : matchTagAt F (c :: (u ++ y)) = none := by
      simpa using h 0 (by simp)
    rw [List.cons_append, searchTag_cons_neg h0]
    exact ih y fun n hn => by simpa using h (n + 1) (by simpa using Nat.succ_lt_succ hn)

/-! ### Preservation of match failure under substitution -/

theorem appendSplitLeft {α : Type} : ∀ (c a b d : List α), a ++ b = c ++ d →
    c.length ≤ a.length → ∃ m, a = c ++ m ∧ d = m ++ b := by
  intro c
  induction c with
  | nil =>
    intro a b d h _
    exact ⟨a, by simp, by simpa using h.symm⟩
  | cons x c ih =>
    intro a b d h hlen
    cases a with
    | nil => simp at hlen
    | cons y a =>
      simp only [List.cons_append] at h
      injection h with h1 h2
      subst h1
      obtain ⟨m, hm1, hm2⟩ := ih a b d h2 (by simpa using hlen)
      exact ⟨m, by rw [hm1]; rfl, hm2⟩

theorem tagLit_not_mem_nl {F : List Char} (hF : '\n' ∉ F) : '\n' ∉ tagLit F := by
  intro hx
  simp only [tagLit, List.mem_cons, List.mem_append, List.mem_singleton] at hx
  rcases hx with h | h | h
  · exact absurd h (by decide)
  · exact hF h
  · exact absurd h (by decide)

/-- The key frame property of the non-greedy scanner: if no match of
`\[F:(.+?)\]` starts at some position strictly before a full tag token,
then no match starts there after the value of that token (and everything
after it) has been replaced by different text that still starts with a
full tag token. -/
theorem matchFail_pres (F u v V rem1 rem2 : List Char)
    (hF2 : '\n' ∉ F) (hv0 : v ≠ []) (hv2 : '\n' ∉ v)
    (h : matchTagAt F (u ++ tagLit F ++ v ++ ']' :: rem1) = none) :
    matchTagAt F (u ++ tagLit F ++ V ++ ']' :: rem2) = none := by
  by_contra hc
  cases hmm : matchTagAt F (u ++ tagLit F ++ V ++ ']' :: rem2) with
  | none => exact hc hmm
  | some wr =>
    obtain ⟨w, r2⟩ := wr
    obtain ⟨heq, hw0, hw2, hw3⟩ := matchTagAt_eq_some hmm
    simp only [List.append_assoc] at heq
    rcases Nat.le_total (tagLit F).length u.length with hle | hle
    · -- the whole literal fits inside u
      obtain ⟨u2, hu, hd⟩ := appendSplitLeft (tagLit F) u
        (tagLit F ++ (V ++ ']' :: rem2)) (w ++ ']' :: r2) heq hle
      rcases Nat.le_total w.length u2.length with hlew | hleu
      · -- the matched value and its closing bracket also fit inside u
        obtain ⟨m, hm1, hm2⟩ := appendSplitLeft w u2
          (tagLit F ++ (V ++ ']' :: rem2)) (']' :: r2) hd.symm hlew
        cases m with
        | nil =>
          rw [List.append_nil] at hm1
          simp only [tagLit, List.nil_append, List.cons_append] at hm2
          injection hm2 with h1 _
          exact absurd h1 (by decide)
        | cons e m =>
          simp only [List.cons_append] at hm2
          injection hm2 with h1 h2
          subst h1
          have hs := matchTagAt_isSome F w (m ++ (tagLit F ++ (v ++ ']' :: rem1))) hw0 hw2
          have hrw : u ++ tagLit F ++ v ++ ']' :: rem1
              = tagLit F ++ w ++ ']' :: (m ++ (tagLit F ++ (v ++ ']' :: rem1))) := by
            rw [hu, hm1]
            simp [List.append_assoc]
          rw [hrw] at h
          rw [h] at hs
          simp at hs
      · -- u ends inside the matched value, which is newline-free
        obtain ⟨m, hm1, _⟩ := appendSplitLeft u2 w (']' :: r2)
          (tagLit F ++ (V ++ ']' :: rem2)) hd hleu
        have hnu2 : '\n' ∉ u2 := fun hx => hw2 (by rw [hm1]; exact List.mem_append_left m hx)
        have ha : u2 ++ (tagLit F ++ v) ≠ [] := by simp [tagLit]
        have hna : '\n' ∉ u2 ++ (tagLit F ++ v) := by
          simp only [List.mem_append, not_or]
          exact ⟨hnu2, tagLit_not_mem_nl hF2, hv2⟩
        have hs := matchTagAt_isSome F (u2 ++ (tagLit F ++ v)) rem1 ha hna
        have hrw : u ++ tagLit F ++ v ++ ']' :: rem1
            = tagLit F ++ (u2 ++ (tagLit F ++ v)) ++ ']' :: rem1 := by
          rw [hu]
          simp [List.append_assoc]
        rw [hrw] at h
        rw [h] at hs
        simp at hs
    · -- u is a proper prefix of the literal, which self-overlaps
      obtain ⟨L2, huL2, hE⟩ := appendSplitLeft u (tagLit F) (w ++ ']' :: r2)
        (tagLit F ++ (V ++ ']' :: rem2)) heq.symm hle
      obtain ⟨L3, hL23, _⟩ := appendSplitLeft L2 (tagLit F) (V ++ ']' :: rem2)
        (w ++ ']' :: r2) hE (by rw [huL2]; simp)
      have hnL3 : '\n' ∉ L3 :=
        fun hx => tagLit_not_mem_nl hF2 (by rw [hL23]; exact List.mem_append_right L2 hx)
      have ha : L3 ++ v ≠ [] := by
        intro hx
        rcases List.append_eq_nil.mp hx with ⟨-, h2⟩
        exact hv0 h2
      have hna : '\n' ∉ L3 ++ v := by
        simp only [List.mem_append, not_or]
        exact ⟨hnL3, hv2⟩
      have hs := matchTagAt_isSome F (L3 ++ v) rem1 ha hna
      have hrw : u ++ tagLit F ++ v ++ ']' :: rem1
          = tagLit F ++ (L3 ++ v) ++ ']' :: rem1 := by
        conv_rhs => rw [huL2]
        conv_lhs => rw [hL23]
        simp [List.append_assoc]
      rw [hrw] at h
      rw [h] at hs
      simp at hs

/-- Replacing every `[F:...]` token with `[F:V]` and searching again
captures exactly `V` whenever the original text had a match, for a
nonempty replacement value without `]` or newline and a newline-free
field token. -/
theorem subTag_roundTrip (F V : List Char) (hF2 : '\n' ∉ F)
    (hV0 : V ≠ []) (hV1 : ']' ∉ V) (hV2 : '\n' ∉ V) (t w : List Char)
    (h : searchTag F t = some w) :
    searchTag F (subTag F (tagLit F ++ V ++ [']']) t) = some V := by
  obtain ⟨u, rem, he, h1, h2, h3, hsub, hno⟩ :=
    searchTag_decomp F (tagLit F ++ V ++ [']']) t w h
  rw [hsub]
  have hform : u ++ (tagLit F ++ V ++ [']']) ++ subTag F (tagLit F ++ V ++ [']']) rem
      = u ++ (tagLit F ++ (V ++ (']' :: subTag F (tagLit F ++ V ++ [']']) rem))) := by
    simp [List.append_assoc]
  rw [hform]
  rw [searchTag_skip F u (tagLit F ++ (V ++ (']' :: subTag F (tagLit F ++ V ++ [']']) rem)))
    (fun n hn => by
      have hc := matchFail_pres F (u.drop n) w V rem
        (subTag F (tagLit F ++ V ++ [']']) rem) hF2 h1 h2 (hno n hn)
      simpa [List.append_assoc] using hc)]
  have hmt : matchTagAt F (tagLit F ++ V ++ ']' :: subTag F (tagLit F ++ V ++ [']']) rem)
      = some (V, subTag F (tagLit F ++ V ++ [']']) rem) :=
    matchTagAt_append F V _ hV0 hV2 (fun hx => hV1 (List.mem_of_mem_drop hx))
  have hcons : tagLit F ++ (V ++ (']' :: subTag F (tagLit F ++ V ++ [']']) rem))
      = '[' :: ((F ++ [':']) ++ (V ++ (']' :: subTag F (tagLit F ++ V ++ [']']) rem))) := by
    simp [tagLit]
  rw [hcons]
  exact searchTag_cons_pos (by rw [← hcons]; simpa [List.append_assoc] using hmt)

/-! ### Recursion equations of the replace-all string substitution -/

theorem startsW_nil_and (pat : List Char) : (startsW pat [] && !pat.isEmpty) = false := by
  cases pat <;> simp [startsW]

theorem strReplaceAux_irrel (pat repl : List Char) :
    ∀ f1 f2 s, s.length ≤ f1 → s.length ≤ f2 →
      strReplaceAux pat repl f1 s = strReplaceAux pat repl f2 s := by
  intro f1
  induction f1 with
  | zero =>
    intro f2 s h1 _
    have hs : s = [] := List.eq_nil_of_length_eq_zero (Nat.le_zero.mp h1)
    subst hs
    cases f2 with
    | zero => rfl
    | succ g => simp [strReplaceAux, startsW_nil_and]
  | succ f ih =>
    intro f2 s h1 h2
    cases f2 with
    | zero =>
      have hs : s = [] := List.eq_nil_of_length_eq_zero (Nat.le_zero.mp h2)
      subst hs
      simp [strReplaceAux, startsW_nil_and]
    | succ g =>
      by_cases hcond : (startsW pat s && !pat.isEmpty) = true
      · have hp0 : pat ≠ [] := by
          intro hx
          subst hx
          simp [startsW] at hcond
        have hplen : 1 ≤ pat.length := List.length_pos.mpr hp0
        simp only [strReplaceAux, if_pos hcond]
        rw [ih g (s.drop pat.length) (by rw [List.length_drop]; omega)
          (by rw [List.length_drop]; omega)]
      · simp only [strReplaceAux, if_neg hcond]
        cases s with
        | nil => rfl
        | cons c t =>
          simp only [List.length_cons] at h1 h2
          show c :: strReplaceAux pat repl f t = c :: strReplaceAux pat repl g t
          rw [ih g t (by omega) (by omega)]

theorem pyReplace_pos {pat : List Char} (repl : List Char) {s : List Char}
    (hsw : startsW pat s = true) (hp : pat ≠ []) :
    pyReplace pat repl s = repl ++ pyReplace pat repl (s.drop pat.length) := by
  obtain ⟨r, hr⟩ := (startsW_iff pat s).mp hsw
  have hplen : 1 ≤ pat.length := List.length_pos.mpr hp
  have hslen : pat.length ≤ s.length := by rw [hr]; simp
  have hcond : (startsW pat s && !pat.isEmpty) = true := by
    cases pat with
    | nil => exact absurd rfl hp
    | cons p ps => simp [hsw]
  cases hn : s.length with
  | zero => omega
  | succ n =>
    have hn' : s.length = n + 1 := hn
    unfold pyReplace
    rw [hn']
    simp only [strReplaceAux, if_pos hcond]
    rw [strReplaceAux_irrel pat repl n (s.drop pat.length).length (s.drop pat.length)
      (by rw [List.length_drop]; omega) (Nat.le_refl _)]

theorem pyReplace_neg {pat : List Char} (repl : List Char) {c : Char} {t : List Char}
    (h : startsW pat (c :: t) = false) :
    pyReplace pat repl (c :: t) = c :: pyReplace pat repl t := by
  have hcond : ¬ ((startsW pat (c :: t) && !pat.isEmpty) = true) := by
    simp [h]
  unfold pyReplace
  simp only [List.length_cons, strReplaceAux, if_neg hcond]

/-- Decomposition of a text containing the literal `pat`: the prefix
before the first occurrence, the occurrence, and the remainder; the
replacement copies the prefix, substitutes the occurrence and recurses
on the remainder; no occurrence starts inside the prefix. -/
theorem containsSub_decomp (pat repl : List Char) (hp : pat ≠ []) :
    ∀ t, containsSub pat t = true →
      ∃ u rem, t = u ++ pat ++ rem ∧
        pyReplace pat repl t = u ++ repl ++ pyReplace pat repl rem ∧
        ∀ n, n < u.length → startsW pat (u.drop n ++ pat ++ rem) = false := by
  intro t
  induction t with
  | nil =>
    intro h
    cases pat with
    | nil => exact absurd rfl hp
    | cons p ps => simp [containsSub, startsW] at h
  | cons c t ih =>
    intro h
    by_cases hsw : startsW pat (c :: t) = true
    · obtain ⟨r, hr⟩ := (startsW_iff pat (c :: t)).mp hsw
      refine ⟨[], r, by simpa using hr, ?_, ?_⟩
      · rw [pyReplace_pos repl hsw hp]
        have hdrop : (c :: t).drop pat.length = r := by
          rw [hr, List.drop_left]
        rw [hdrop]
        simp
      · intro n hn; cases hn
    · have hsw' : startsW pat (c :: t) = false := by
        cases hx : startsW pat (c :: t) with
        | false => rfl
        | true => exact absurd hx hsw
      have hct : containsSub pat t = true := by
        have hcc := h
        simp only [containsSub, hsw', Bool.false_or] at hcc
        exact hcc
      obtain ⟨u, rem, he, hrepl, hno⟩ := ih hct
      refine ⟨c :: u, rem, by simpa using he, ?_, ?_⟩
      · rw [pyReplace_neg repl hsw', hrepl]
        simp
      · intro n hn
        cases n with
        | zero =>
          have hrw : (c :: u).drop 0 ++ pat ++ rem = c :: t := by
            rw [List.drop_zero, he]
            simp
          rw [hrw]
          exact hsw'
        | succ m =>
          have hlt : m < u.length := by
            simpa using Nat.succ_lt_succ_iff.mp (by simpa using hn)
          simpa using hno m hlt

theorem pyReplace_id (pat repl : List Char) :
    ∀ t, containsSub pat t = false → pyReplace pat repl t = t := by
  intro t
  induction t with
  | nil => intro _; rfl
  | cons c t ih =>
    intro h
    simp only [containsSub, Bool.or_eq_false_iff] at h
    rw [pyReplace_neg repl h.1, ih h.2]

/-! ### Fixtures for concrete instances -/

/-- A version descriptor for a modern version, as `PyLNP` would supply. -/
def dfInfoW : DFInfo := { version := "0.40.24", variations := [] }

/-- An empty registry against the modern version. -/
def cfg0 : DFConfig :=
  { df_info := dfInfoW, settings := [], options := [], field_names := [],
    inverse_field_names := [], files := [], in_files := [] }

/-- A version descriptor strictly below 0.31.13. -/
def dfInfoOld : DFInfo := { version := "0.31.12", variations := [] }

/-- An empty registry against the old version. -/
def cfgOld : DFConfig :=
  { df_info := dfInfoOld, settings := [], options := [], field_names := [],
    inverse_field_names := [], files := [], in_files := [] }

/-- The registry state after registering entombPets on `cfg0`. -/
def cfgE : DFConfig :=
  { df_info := dfInfoW,
    settings := [("entombPets", "NO")],
    options := [("entombPets", Policy.negatedBool)],
    field_names := [("entombPets", "COFFIN_NO_PETS_DEFAULT")],
    inverse_field_names := [("COFFIN_NO_PETS_DEFAULT", "entombPets")],
    files := [("entombPets", ["d_init.txt"])],
    in_files := [(["d_init.txt"], ["entombPets"])] }

/-- The registry state after a second registration of the same on-disk
field under a fresh internal name. -/
def cfgE2 : DFConfig :=
  { df_info := dfInfoW,
    settings := [("entombPets", "NO"), ("petsEntomb", "YES")],
    options := [("entombPets", Policy.negatedBool), ("petsEntomb", Policy.negatedBool)],
    field_names := [("entombPets", "COFFIN_NO_PETS_DEFAULT"),
      ("petsEntomb", "COFFIN_NO_PETS_DEFAULT")],
    inverse_field_names := [("COFFIN_NO_PETS_DEFAULT", "petsEntomb")],
    files := [("entombPets", ["d_init.txt"]), ("petsEntomb", ["d_init.txt"])],
    in_files := [(["d_init.txt"], ["entombPets", "petsEntomb"])] }

/-- A registry with the single Unconstrained option volume/VOLUME. -/
def cfgVol : DFConfig :=
  { df_info := dfInfoW,
    settings := [("volume", "255")],
    options := [("volume", Policy.unconstrained)],
    field_names := [("volume", "VOLUME")],
    inverse_field_names := [("VOLUME", "volume")],
    files := [("volume", ["init.txt"])],
    in_files := [(["init.txt"], ["volume"])] }

/-- A registry with the single NegatedBoolean option
entombPets/COFFIN_NO_PETS_DEFAULT. -/
def cfgNeg : DFConfig := cfgE

/-- A registry with the single BracketToggle option aquifers/AQUIFER. -/
def cfgAq : DFConfig :=
  { df_info := dfInfoW,
    settings := [("aquifers", "NO")],
    options := [("aquifers", Policy.disabled)],
    field_names := [("aquifers", "AQUIFER")],
    inverse_field_names := [("AQUIFER", "aquifers")],
    files := [("aquifers", ["inorganic_stone_layer.txt"])],
    in_files := [(["inorganic_stone_layer.txt"], ["aquifers"])] }

/-! ### Claim C5 -/

/-- Claim C5 (amended): create_option is a silent no-op exactly when the
new internal name is already a key of `settings` or a key of
`inverse_field_names`; in that case the whole registry state is
unchanged. -/
theorem create_option_guard_noop (cfg : DFConfig) (name field_name default : String)
    (values : Policy) (files : List String)
    (h : dcontains cfg.settings name = true ∨ dcontains cfg.inverse_field_names name = true) :
    create_option cfg name field_name default values files = some cfg := by
  unfold create_option
  rcases h with h | h <;> simp [h]

/-- Claim C5 (counterexample): re-registering the already-registered
on-disk field `COFFIN_NO_PETS_DEFAULT` under the fresh internal name
petsEntomb is not a no-op: the registry state changes (a second option
is created and the inverse mapping is rebound). -/
theorem create_option_rereg_not_noop :
    create_option cfg0 "entombPets" "COFFIN_NO_PETS_DEFAULT" "NO" Policy.negatedBool
      ["d_init.txt"] = some cfgE ∧
    create_option cfgE "petsEntomb" "COFFIN_NO_PETS_DEFAULT" "YES" Policy.negatedBool
      ["d_init.txt"] = some cfgE2 ∧
    cfgE2 ≠ cfgE := by
  refine ⟨by decide, by decide, by decide⟩

/-- Witness for C5 at a concrete input. -/
theorem create_option_guard_noop_witness :
    dcontains cfgE.settings "entombPets" = true ∧
    create_option cfgE "entombPets" "SOMETHING_ELSE" "YES" Policy.unconstrained ["x.txt"]
      = some cfgE :=
  ⟨by decide,
   create_option_guard_noop cfgE "entombPets" "SOMETHING_ELSE" "YES" Policy.unconstrained
     ["x.txt"] (Or.inl (by decide))⟩

/-! ### Claim C7 -/

/-- Claim C7: cycle_list returns `current` for Unconstrained; the three
marker policies behave exactly as the enumerated sequence YES, NO; for a
non-empty enumerated sequence the result is the first element when
`current` is not a member, and otherwise the element after the first
occurrence of `current`, wrapping from the last element to the first
(expressed by rotating the sequence at that occurrence). -/
theorem cycle_list_spec (current x : String) (t as bs : List String) :
    cycle_list current Policy.unconstrained = some current ∧
    cycle_list current Policy.disabled = cycle_list current (Policy.enumerated ["YES", "NO"]) ∧
    cycle_list current Policy.forceBool = cycle_list current (Policy.enumerated ["YES", "NO"]) ∧
    cycle_list current Policy.negatedBool = cycle_list current (Policy.enumerated ["YES", "NO"]) ∧
    (current ∉ x :: t → cycle_list current (Policy.enumerated (x :: t)) = some x) ∧
    (current ∉ as →
      cycle_list current (Policy.enumerated (as ++ current :: bs))
        = (bs ++ as ++ [current]).head?) := by
  refine ⟨rfl, rfl, rfl, rfl, ?_, ?_⟩
  · intro h
    simp [cycle_list, cycle_seq, h]
  · intro h
    have hmem : current ∈ as ++ current :: bs :=
      List.mem_append_right _ (List.mem_cons_self _ _)
    have hidx : ∀ as2 bs2 : List String, current ∉ as2 →
        (as2 ++ current :: bs2).indexOf current = as2.length := by
      intro as2
      induction as2 with
      | nil => intro bs2 _; simp [List.indexOf_cons_self]
      | cons a as2 ih =>
        intro bs2 h2
        simp only [List.mem_cons, not_or] at h2
        rw [List.cons_append, List.indexOf_cons_ne _ (fun hx => h2.1 hx.symm), ih bs2 h2.2]
        rfl
    simp only [cycle_list, cycle_seq, if_pos hmem, hidx as bs h]
    cases bs with
    | nil =>
      have hlen : (as ++ [current]).length = as.length + 1 := by simp
      rw [hlen, Nat.mod_self]
      cases as <;> rfl
    | cons b bs =>
      have hlen : (as ++ current :: b :: bs).length = as.length + (bs.length + 2) := by
        simp
      have hmod : (as.length + 1) % (as ++ current :: b :: bs).length = as.length + 1 := by
        rw [hlen]
        exact Nat.mod_eq_of_lt (by omega)
      rw [hmod, List.get?_append_right (by omega)]
      simp

/-- Witness for C7: the cases of testable property 5 of the spec. -/
theorem cycle_list_spec_witness :
    "YEARLY" ∉ (["NONE", "SEASONAL"] : List String) ∧
    cycle_list "YEARLY" (Policy.enumerated ["NONE", "SEASONAL", "YEARLY"]) = some "NONE" ∧
    "BOGUS" ∉ ("NONE" :: ["SEASONAL", "YEARLY"] : List String) ∧
    cycle_list "BOGUS" (Policy.enumerated ["NONE", "SEASONAL", "YEARLY"]) = some "NONE" := by
  refine ⟨by decide, ?_, by decide, ?_⟩
  · have h := (cycle_list_spec "YEARLY" "NONE" [] ["NONE", "SEASONAL"] []).2.2.2.2.2
      (by decide)
    simpa using h
  · have h := (cycle_list_spec "BOGUS" "NONE" ["SEASONAL", "YEARLY"] [] []).2.2.2.2.1
      (by decide)
    simpa using h

/-! ### Claim C8 -/

/-- Claim C8: when the version table marks the on-disk field name as
unsupported for the active version, create_option still records
`field_names[name] = field_name` but stores no default, no policy, no
file binding and no inverse mapping: every other component of the
registry is unchanged and the name stays absent from settings, options
and files. -/
theorem create_option_version_gated (cfg : DFConfig) (name field_name default : String)
    (values : Policy) (files : List String)
    (h1 : dlookup cfg.settings name = none)
    (h2 : dlookup cfg.inverse_field_names name = none)
    (h3 : version_has_option
      { cfg with field_names := dinsert cfg.field_names name field_name } field_name
      = some false)
    (h4 : dlookup cfg.options name = none)
    (h5 : dlookup cfg.files name = none) :
    ∃ cfg2, create_option cfg name field_name default values files = some cfg2 ∧
      cfg2.settings = cfg.settings ∧ cfg2.options = cfg.options ∧
      cfg2.files = cfg.files ∧ cfg2.in_files = cfg.in_files ∧
      cfg2.inverse_field_names = cfg.inverse_field_names ∧
      dlookup cfg2.field_names name = some field_name ∧
      dlookup cfg2.settings name = none ∧ dlookup cfg2.options name = none ∧
      dlookup cfg2.files name = none := by
  refine ⟨{ cfg with field_names := dinsert cfg.field_names name field_name },
    ?_, rfl, rfl, rfl, rfl, rfl, dlookup_dinsert_self _ _ _, h1, h4, h5⟩
  unfold create_option
  simp [dcontains, h1, h2, h3]

/-- Witness for C8: TRUETYPE (introduced 0.31.13) registered against
version 0.31.12. -/
theorem create_option_version_gated_witness :
    dlookup cfgOld.settings "truetype" = none ∧
    version_has_option
      { cfgOld with field_names := dinsert cfgOld.field_names "truetype" "TRUETYPE" }
      "TRUETYPE" = some false ∧
    (∃ cfg2, create_option cfgOld "truetype" "TRUETYPE" "YES" Policy.forceBool
        ["init.txt"] = some cfg2 ∧
      cfg2.settings = cfgOld.settings ∧ cfg2.options = cfgOld.options ∧
      cfg2.files = cfgOld.files ∧ cfg2.in_files = cfgOld.in_files ∧
      cfg2.inverse_field_names = cfgOld.inverse_field_names ∧
      dlookup cfg2.field_names "truetype" = some "TRUETYPE" ∧
      dlookup cfg2.settings "truetype" = none ∧ dlookup cfg2.options "truetype" = none ∧
      dlookup cfg2.files "truetype" = none) :=
  ⟨rfl, by decide,
   create_option_version_gated cfgOld "truetype" "TRUETYPE" "YES" Policy.forceBool
     ["init.txt"] rfl rfl (by decide) rfl rfl⟩

/-! ### Claim C9 -/

/-- Claim C9: the static probes never raise on an unopenable file:
read_value gives none and has_field gives false when the file cannot be
opened; when it opens, read_value gives the captured value of the first
bracketed token for the field, or none when no token matches. -/
theorem static_probes_tolerant (fs : FS) (filename field text : String) (v : List Char)
    (n mi ma : Int) :
    (dlookup fs filename = none → read_value fs filename field = none) ∧
    (dlookup fs filename = none → has_field fs filename field n mi ma = false) ∧
    (dlookup fs filename = some text → searchTag field.data text.data = some v →
      read_value fs filename field = some (String.mk v)) ∧
    (dlookup fs filename = some text → searchTag field.data text.data = none →
      read_value fs filename field = none) := by
  refine ⟨?_, ?_, ?_, ?_⟩
  · intro h; simp [read_value, h]
  · intro h; simp [has_field, h]
  · intro h1 h2; simp [read_value, h1, h2]
  · intro h1 h2; simp [read_value, h1, h2]

/-- Witness for C9 at a concrete file system. -/
theorem static_probes_tolerant_witness :
    dlookup ([("a.txt", "[FONT:curses.png]")] : FS) "b.txt" = none ∧
    read_value [("a.txt", "[FONT:curses.png]")] "b.txt" "FONT" = none ∧
    has_field [("a.txt", "[FONT:curses.png]")] "b.txt" "FONT" (-1) (-1) (-1) = false ∧
    dlookup ([("a.txt", "[FONT:curses.png]")] : FS) "a.txt" = some "[FONT:curses.png]" ∧
    searchTag "FONT".data "[FONT:curses.png]".data = some "curses.png".data ∧
    read_value [("a.txt", "[FONT:curses.png]")] "a.txt" "FONT" = some "curses.png" :=
  ⟨rfl,
   (static_probes_tolerant [("a.txt", "[FONT:curses.png]")] "b.txt" "FONT" ""
     [] (-1) (-1) (-1)).1 rfl,
   (static_probes_tolerant [("a.txt", "[FONT:curses.png]")] "b.txt" "FONT" ""
     [] (-1) (-1) (-1)).2.1 rfl,
   rfl, by decide,
   (static_probes_tolerant [("a.txt", "[FONT:curses.png]")] "a.txt" "FONT"
     "[FONT:curses.png]" "curses.png".data (-1) (-1) (-1)).2.2.1 rfl (by decide)⟩

/-! ### Claim C10 -/

/-- Claim C10: the YES and NO swap of NegatedBoolean options is partial:
set_value stores any value without validation, and a value other than
NO or YES makes read_file (from the captured on-disk value), write_file
and create_file (from the stored value) raise ValueError. -/
theorem negSwap_only_yes_no (cfg : DFConfig) (fs : FS) (filename name fname text V : String)
    (v : List Char) :
    (∀ (c : DFConfig) (n val : String),
      dlookup (set_value c n val).settings n = some val) ∧
    (dlookup cfg.options name = some Policy.negatedBool →
      dlookup cfg.inverse_field_names name = none →
      dlookup cfg.field_names name = some fname →
      dlookup fs filename = some text →
      searchTag fname.data text.data = some v →
      String.mk v ≠ "NO" → String.mk v ≠ "YES" →
      read_file fs cfg filename [name] false = none) ∧
    (dlookup cfg.options name = some Policy.negatedBool →
      dlookup cfg.settings name = some V → V ≠ "NO" → V ≠ "YES" →
      dlookup fs filename = some text →
      write_file fs cfg filename [name] = none) ∧
    (dlookup cfg.options name = some Policy.negatedBool →
      dlookup cfg.settings name = some V → V ≠ "NO" → V ≠ "YES" →
      create_file fs cfg filename [name] = none) := by
  refine ⟨?_, ?_, ?_, ?_⟩
  · intro c n val
    exact dlookup_dinsert_self _ _ _
  · intro hopt hinv hfn hfile hsearch hno hyes
    simp [read_file, hfile, read_fields, read_field, hinv, hopt, hfn, hsearch,
      negSwap, hno, hyes]
  · intro hopt hset hno hyes hfile
    simp [write_file, hfile, write_fields, write_field, hopt, hset, negSwap, hno, hyes]
  · intro hopt hset hno hyes
    simp [create_file, create_file_body, create_file_line, hopt, hset, negSwap, hno, hyes]

/-- Witness for C10: the stored value MAYBE reaches the swap through
set_value and every swap site raises. -/
theorem negSwap_only_yes_no_witness :
    dlookup (set_value cfgE "entombPets" "MAYBE").settings "entombPets" = some "MAYBE" ∧
    read_file [("d_init.txt", "[COFFIN_NO_PETS_DEFAULT:MAYBE]")] cfgE "d_init.txt"
      ["entombPets"] false = none ∧
    write_file [("d_init.txt", "[COFFIN_NO_PETS_DEFAULT:NO]")]
      (set_value cfgE "entombPets" "MAYBE") "d_init.txt" ["entombPets"] = none ∧
    create_file [] (set_value cfgE "entombPets" "MAYBE") "new.txt" ["entombPets"] = none :=
  ⟨(negSwap_only_yes_no cfgE [] "x" "n" "f" "" "" []).1 cfgE "entombPets" "MAYBE",
   (negSwap_only_yes_no cfgE [("d_init.txt", "[COFFIN_NO_PETS_DEFAULT:MAYBE]")]
       "d_init.txt" "entombPets" "COFFIN_NO_PETS_DEFAULT"
       "[COFFIN_NO_PETS_DEFAULT:MAYBE]" "" "MAYBE".data).2.1
     rfl rfl rfl rfl (by decide) (by decide) (by decide),
   (negSwap_only_yes_no (set_value cfgE "entombPets" "MAYBE")
       [("d_init.txt", "[COFFIN_NO_PETS_DEFAULT:NO]")]
       "d_init.txt" "entombPets" "COFFIN_NO_PETS_DEFAULT"
       "[COFFIN_NO_PETS_DEFAULT:NO]" "MAYBE" []).2.2.1
     rfl rfl (by decide) (by decide) rfl,
   (negSwap_only_yes_no (set_value cfgE "entombPets" "MAYBE") []
       "new.txt" "entombPets" "COFFIN_NO_PETS_DEFAULT" "" "MAYBE" []).2.2.2
     rfl rfl (by decide) (by decide)⟩

/-! ### Claim C3 -/

/-- Claim C3 (amended): for a BracketToggle (_disabled) field, when the
stored value is NO write_file replaces every occurrence (not only the
first) of the bracketed literal by the bang literal, and otherwise every
occurrence of the bang literal by the bracketed one; the text before
the first occurrence is preserved verbatim and no occurrence starts
inside it; when the source literal is absent (in particular when
neither literal is present) the file text is unchanged; no error is
raised in any case. -/
theorem toggle_write_replaces_all (cfg : DFConfig) (fs : FS)
    (filename name fname text cur : String) (src dst : List Char)
    (hopt : dlookup cfg.options name = some Policy.disabled)
    (hset : dlookup cfg.settings name = some cur)
    (hfn : dlookup cfg.field_names name = some fname)
    (hfile : dlookup fs filename = some text)
    (hsrc : src = if cur = "NO" then '[' :: (fname.data ++ [']'])
      else '!' :: (fname.data ++ ['!']))
    (hdst : dst = if cur = "NO" then '!' :: (fname.data ++ ['!'])
      else '[' :: (fname.data ++ [']'])) :
    write_file fs cfg filename [name]
      = some (dinsert fs filename (String.mk (pyReplace src dst text.data))) ∧
    (containsSub src text.data = false → pyReplace src dst text.data = text.data) ∧
    (containsSub src text.data = true → ∃ u rem,
      text.data = u ++ src ++ rem ∧
      pyReplace src dst text.data = u ++ dst ++ pyReplace src dst rem ∧
      ∀ n, n < u.length → startsW src (u.drop n ++ src ++ rem) = false) := by
  have hsne : src ≠ [] := by
    rw [hsrc]
    by_cases h : cur = "NO" <;> simp [h]
  refine ⟨?_, pyReplace_id src dst text.data, containsSub_decomp src dst hsne text.data⟩
  by_cases h : cur = "NO"
  · simp [write_file, hfile, write_fields, write_field, hopt, hset, hfn, hsrc, hdst, h]
  · simp [write_file, hfile, write_fields, write_field, hopt, hset, hfn, hsrc, hdst, h]

/-- Claim C3 (counterexample): with stored value NO and two occurrences
of the bracketed literal, write_file rewrites both, not only the first. -/
theorem toggle_write_second_occurrence_rewritten :
    write_file [("inorganic_stone_layer.txt", "[AQUIFER] [AQUIFER]")] cfgAq
      "inorganic_stone_layer.txt" ["aquifers"]
      = some [("inorganic_stone_layer.txt", "!AQUIFER! !AQUIFER!")] ∧
    ("!AQUIFER! !AQUIFER!" : String) ≠ "!AQUIFER! [AQUIFER]" :=
  ⟨by decide, by decide⟩

/-- Witness for C3 at a concrete toggle write. -/
theorem toggle_write_replaces_all_witness :
    dlookup cfgAq.options "aquifers" = some Policy.disabled ∧
    (write_file [("inorganic_stone_layer.txt", "x [AQUIFER] y")] cfgAq
        "inorganic_stone_layer.txt" ["aquifers"]
      = some (dinsert [("inorganic_stone_layer.txt", "x [AQUIFER] y")]
          "inorganic_stone_layer.txt"
          (String.mk (pyReplace ('[' :: ("AQUIFER".data ++ [']']))
            ('!' :: ("AQUIFER".data ++ ['!'])) "x [AQUIFER] y".data))) ∧
      (containsSub ('[' :: ("AQUIFER".data ++ [']'])) "x [AQUIFER] y".data = false →
        pyReplace ('[' :: ("AQUIFER".data ++ [']'])) ('!' :: ("AQUIFER".data ++ ['!']))
          "x [AQUIFER] y".data = "x [AQUIFER] y".data) ∧
      (containsSub ('[' :: ("AQUIFER".data ++ [']'])) "x [AQUIFER] y".data = true →
        ∃ u rem, "x [AQUIFER] y".data = u ++ ('[' :: ("AQUIFER".data ++ [']'])) ++ rem ∧
          pyReplace ('[' :: ("AQUIFER".data ++ [']'])) ('!' :: ("AQUIFER".data ++ ['!']))
            "x [AQUIFER] y".data
            = u ++ ('!' :: ("AQUIFER".data ++ ['!'])) ++
              pyReplace ('[' :: ("AQUIFER".data ++ [']'])) ('!' :: ("AQUIFER".data ++ ['!'])) rem ∧
          ∀ n, n < u.length →
            startsW ('[' :: ("AQUIFER".data ++ [']']))
              (u.drop n ++ ('[' :: ("AQUIFER".data ++ [']'])) ++ rem) = false)) :=
  ⟨by decide,
   toggle_write_replaces_all cfgAq [("inorganic_stone_layer.txt", "x [AQUIFER] y")]
     "inorganic_stone_layer.txt" "aquifers" "AQUIFER" "x [AQUIFER] y" "NO"
     ('[' :: ("AQUIFER".data ++ [']'])) ('!' :: ("AQUIFER".data ++ ['!']))
     (by decide) (by decide) (by decide) (by decide) (by decide) (by decide)⟩

/-! ### Claim C1 -/

/-- Claim C1 (amended): for a registered non-toggle field, write_file
substitutes every occurrence of the bracketed token, not only the
first: the text splits into the prefix before the first token, in which
no match starts and which is preserved byte for byte, the first token
rewritten with the derived value (YES and NO swapped for
NegatedBoolean), and the remainder, to which the same replace-all
substitution is applied recursively. -/
theorem write_file_replaces_all_tags (cfg : DFConfig) (fs : FS)
    (filename name fname text cur V : String) (opt : Policy) (w : List Char)
    (hopt : dlookup cfg.options name = some opt)
    (hnd : opt ≠ Policy.disabled)
    (hset : dlookup cfg.settings name = some cur)
    (hval : (if opt = Policy.negatedBool then negSwap cur else some cur) = some V)
    (hfn : dlookup cfg.field_names name = some fname)
    (hfile : dlookup fs filename = some text)
    (hsearch : searchTag fname.data text.data = some w) :
    ∃ u rem,
      text.data = u ++ tagLit fname.data ++ w ++ ']' :: rem ∧
      (∀ n, n < u.length →
        matchTagAt fname.data (u.drop n ++ tagLit fname.data ++ w ++ ']' :: rem) = none) ∧
      write_file fs cfg filename [name] = some (dinsert fs filename (String.mk
        (u ++ tagLit fname.data ++ V.data ++ ']' ::
          subTag fname.data (tagLit fname.data ++ V.data ++ [']']) rem))) := by
  obtain ⟨u, rem, he, _, _, _, hsub, hno⟩ :=
    searchTag_decomp fname.data (tagLit fname.data ++ V.data ++ [']']) text.data w hsearch
  refine ⟨u, rem, he, hno, ?_⟩
  have hwf : write_field cfg text.data name
      = some (subTag fname.data (tagLit fname.data ++ V.data ++ [']']) text.data) := by
    cases opt with
    | disabled => exact absurd rfl hnd
    | unconstrained =>
      rw [if_neg (by intro hx; cases hx)] at hval
      injection hval with hv
      subst hv
      simp [write_field, hopt, hset, hfn]
    | enumerated vs =>
      rw [if_neg (by intro hx; cases hx)] at hval
      injection hval with hv
      subst hv
      simp [write_field, hopt, hset, hfn]
    | forceBool =>
      rw [if_neg (by intro hx; cases hx)] at hval
      injection hval with hv
      subst hv
      simp [write_field, hopt, hset, hfn]
    | negatedBool =>
      rw [if_pos rfl] at hval
      simp [write_field, hopt, hset, hfn, hval]
  have hform : subTag fname.data (tagLit fname.data ++ V.data ++ [']']) text.data
      = u ++ tagLit fname.data ++ V.data ++ ']' ::
          subTag fname.data (tagLit fname.data ++ V.data ++ [']']) rem := by
    rw [hsub]
    simp [List.append_assoc]
  simp only [write_file, hfile, write_fields, hwf]
  rw [hform]

/-- Claim C1 (counterexample): a later occurrence of the token is
rewritten as well, so the bytes after the first substitution are not
left identical. -/
theorem write_file_second_tag_rewritten :
    write_file [("init.txt", "[VOLUME:1] [VOLUME:2]")] (set_value cfgVol "volume" "88")
      "init.txt" ["volume"]
      = some [("init.txt", "[VOLUME:88] [VOLUME:88]")] ∧
    ("[VOLUME:88] [VOLUME:88]" : String) ≠ "[VOLUME:88] [VOLUME:2]" :=
  ⟨by decide, by decide⟩

/-- Witness for C1 at a concrete unconstrained write. -/
theorem write_file_replaces_all_tags_witness :
    dlookup cfgVol.options "volume" = some Policy.unconstrained ∧
    searchTag "VOLUME".data "a[VOLUME:1]b".data = some "1".data ∧
    (∃ u rem,
      "a[VOLUME:1]b".data = u ++ tagLit "VOLUME".data ++ "1".data ++ ']' :: rem ∧
      (∀ n, n < u.length →
        matchTagAt "VOLUME".data
          (u.drop n ++ tagLit "VOLUME".data ++ "1".data ++ ']' :: rem) = none) ∧
      write_file [("init.txt", "a[VOLUME:1]b")] cfgVol "init.txt" ["volume"]
        = some (dinsert [("init.txt", "a[VOLUME:1]b")] "init.txt" (String.mk
          (u ++ tagLit "VOLUME".data ++ "255".data ++ ']' ::
            subTag "VOLUME".data (tagLit "VOLUME".data ++ "255".data ++ [']']) rem)))) :=
  ⟨by decide, by decide,
   write_file_replaces_all_tags cfgVol [("init.txt", "a[VOLUME:1]b")] "init.txt" "volume"
     "VOLUME" "a[VOLUME:1]b" "255" "255" Policy.unconstrained "1".data
     (by decide) (by decide) (by decide) (by decide) (by decide) (by decide) (by decide)⟩

/-! ### Claims C2 and C6 -/

theorem strMk_data (s : String) : String.mk s.data = s := rfl

theorem strData_mk (l : List Char) : (String.mk l).data = l := rfl

theorem read_file_false (fs : FS) (cfg : DFConfig) (filename : String)
    (fields : List String) (text : String) (h : dlookup fs filename = some text) :
    read_file fs cfg filename fields false = read_fields text.data cfg fields := by
  simp [read_file, h]

theorem read_value_eq (fs : FS) (filename field text : String)
    (h : dlookup fs filename = some text) :
    read_value fs filename field = (searchTag field.data text.data).map String.mk := by
  simp [read_value, h]

theorem read_file_true (fs : FS) (cfg : DFConfig) (filename : String)
    (fields : List String) (text : String) (h : dlookup fs filename = some text) :
    read_file fs cfg filename fields true
      = match auto_add_all filename cfg (findAllPairs text.data) with
        | some cfg2 => read_fields text.data cfg2 fields
        | none => none := by
  simp [read_file, h]

theorem read_field_negated (cfg : DFConfig) (text : List Char) (name fname : String)
    (v : List Char)
    (hinv : dlookup cfg.inverse_field_names name = none)
    (hopt : dlookup cfg.options name = some Policy.negatedBool)
    (hfn : dlookup cfg.field_names name = some fname)
    (hsearch : searchTag fname.data text = some v) :
    read_field cfg text name
      = (negSwap (String.mk v)).map
          (fun value => { cfg with settings := dinsert cfg.settings name value }) := by
  simp only [read_field, hinv, hopt, hfn, hsearch]
  cases negSwap (String.mk v) with
  | none => rfl
  | some value => rfl

/-- Claim C2 (amended): for an Unconstrained field bound to a file
whose text contains a matching token, setting a nonempty value V that
contains neither a closing bracket nor a newline, writing the file and
reading it back restores V in memory. -/
theorem unconstrained_write_read_roundTrip (cfg : DFConfig) (fs : FS)
    (filename name fname text V : String) (w : List Char)
    (hopt : dlookup cfg.options name = some Policy.unconstrained)
    (hinv : dlookup cfg.inverse_field_names name = none)
    (hfn : dlookup cfg.field_names name = some fname)
    (hF : '\n' ∉ fname.data)
    (hfile : dlookup fs filename = some text)
    (hsearch : searchTag fname.data text.data = some w)
    (hV0 : V.data ≠ []) (hV1 : ']' ∉ V.data) (hV2 : '\n' ∉ V.data) :
    ∃ fs2 cfg2,
      write_file fs (set_value cfg name V) filename [name] = some fs2 ∧
      read_file fs2 (set_value cfg name V) filename [name] false = some cfg2 ∧
      dlookup cfg2.settings name = some V := by
  have hset1 : dlookup (dinsert cfg.settings name V) name = some V :=
    dlookup_dinsert_self _ _ _
  have hwf : write_field (set_value cfg name V) text.data name
      = some (subTag fname.data (tagLit fname.data ++ V.data ++ [']']) text.data) := by
    simp [write_field, set_value, hopt, hset1, hfn]
  have hwrite : write_file fs (set_value cfg name V) filename [name]
      = some (dinsert fs filename (String.mk
          (subTag fname.data (tagLit fname.data ++ V.data ++ [']']) text.data))) := by
    simp only [write_file, hfile, write_fields, hwf]
  have hsearch2 : searchTag fname.data
      (subTag fname.data (tagLit fname.data ++ V.data ++ [']']) text.data) = some V.data :=
    subTag_roundTrip fname.data V.data hF hV0 hV1 hV2 text.data w hsearch
  have hsearch2' : searchTag fname.data
      (subTag fname.data (tagLit fname.data ++ (V.data ++ [']'])) text.data) = some V.data := by
    rw [← List.append_assoc]
    exact hsearch2
  have hfs2 : dlookup (dinsert fs filename (String.mk
      (subTag fname.data (tagLit fname.data ++ V.data ++ [']']) text.data))) filename
      = some (String.mk (subTag fname.data (tagLit fname.data ++ V.data ++ [']']) text.data)) :=
    dlookup_dinsert_self _ _ _
  have hrf : read_field (set_value cfg name V)
      (subTag fname.data (tagLit fname.data ++ V.data ++ [']']) text.data) name
      = some { set_value cfg name V with
          settings := dinsert (set_value cfg name V).settings name V } := by
    simp [read_field, set_value, hinv, hopt, hfn, hsearch2', strMk_data]
  refine ⟨_, { set_value cfg name V with
      settings := dinsert (set_value cfg name V).settings name V }, hwrite, ?_, ?_⟩
  · rw [read_file_false _ _ _ _ _ hfs2, strData_mk]
    simp only [read_fields, hrf]
  · exact dlookup_dinsert_self _ _ _

/-- Claim C2 (counterexample): the empty value (which contains no
closing bracket) breaks the round trip: the written token of VOLUME is
read back with a capture that extends past its closing bracket. -/
theorem empty_value_roundTrip_fails :
    write_file [("init.txt", "[VOLUME:1][SOUND:YES]")] (set_value cfgVol "volume" "")
      "init.txt" ["volume"] = some [("init.txt", "[VOLUME:][SOUND:YES]")] ∧
    (read_file [("init.txt", "[VOLUME:][SOUND:YES]")] (set_value cfgVol "volume" "")
      "init.txt" ["volume"] false).map (fun c => dlookup c.settings "volume")
      = some (some "][SOUND:YES") ∧
    ("][SOUND:YES" : String) ≠ "" :=
  ⟨by decide, by decide, by decide⟩

/-- Witness for C2 at a concrete unconstrained round trip. -/
theorem unconstrained_write_read_roundTrip_witness :
    dlookup cfgVol.options "volume" = some Policy.unconstrained ∧
    searchTag "VOLUME".data "[VOLUME:255]".data = some "255".data ∧
    (∃ fs2 cfg2,
      write_file [("init.txt", "[VOLUME:255]")] (set_value cfgVol "volume" "88")
        "init.txt" ["volume"] = some fs2 ∧
      read_file fs2 (set_value cfgVol "volume" "88") "init.txt" ["volume"] false
        = some cfg2 ∧
      dlookup cfg2.settings "volume" = some "88") :=
  ⟨by decide, by decide,
   unconstrained_write_read_roundTrip cfgVol [("init.txt", "[VOLUME:255]")] "init.txt"
     "volume" "VOLUME" "[VOLUME:255]" "88" "255".data
     (by decide) (by decide) (by decide) (by decide) (by decide) (by decide)
     (by decide) (by decide) (by decide)⟩

/-- Claim C6: a NegatedBoolean field bound to a file whose text contains
a matching token, set to YES, written and read back, is YES in memory
again; on disk the token holds the negated value NO (observed through
the static probe read_value). -/
theorem negated_bool_roundTrip (cfg : DFConfig) (fs : FS)
    (filename name fname text : String) (w : List Char)
    (hopt : dlookup cfg.options name = some Policy.negatedBool)
    (hinv : dlookup cfg.inverse_field_names name = none)
    (hfn : dlookup cfg.field_names name = some fname)
    (hF : '\n' ∉ fname.data)
    (hfile : dlookup fs filename = some text)
    (hsearch : searchTag fname.data text.data = some w) :
    ∃ fs2 cfg2,
      write_file fs (set_value cfg name "YES") filename [name] = some fs2 ∧
      read_value fs2 filename fname = some "NO" ∧
      read_file fs2 (set_value cfg name "YES") filename [name] false = some cfg2 ∧
      dlookup cfg2.settings name = some "YES" := by
  have hset1 : dlookup (dinsert cfg.settings name "YES") name = some "YES" :=
    dlookup_dinsert_self _ _ _
  have hwf : write_field (set_value cfg name "YES") text.data name
      = some (subTag fname.data (tagLit fname.data ++ "NO".data ++ [']']) text.data) := by
    simp [write_field, set_value, hopt, hset1, hfn, negSwap]
  have hwrite : write_file fs (set_value cfg name "YES") filename [name]
      = some (dinsert fs filename (String.mk
          (subTag fname.data (tagLit fname.data ++ "NO".data ++ [']']) text.data))) := by
    simp only [write_file, hfile, write_fields, hwf]
  have hsearch2 : searchTag fname.data
      (subTag fname.data (tagLit fname.data ++ "NO".data ++ [']']) text.data)
      = some "NO".data :=
    subTag_roundTrip fname.data "NO".data hF (by decide) (by decide) (by decide)
      text.data w hsearch
  have hsearch2' : searchTag fname.data
      (subTag fname.data (tagLit fname.data ++ ("NO".data ++ [']'])) text.data)
      = some "NO".data := by
    rw [← List.append_assoc]
    exact hsearch2
  have hfs2 : dlookup (dinsert fs filename (String.mk
      (subTag fname.data (tagLit fname.data ++ "NO".data ++ [']']) text.data))) filename
      = some (String.mk
          (subTag fname.data (tagLit fname.data ++ "NO".data ++ [']']) text.data)) :=
    dlookup_dinsert_self _ _ _
  have hrf : read_field (set_value cfg name "YES")
      (subTag fname.data (tagLit fname.data ++ "NO".data ++ [']']) text.data) name
      = some { set_value cfg name "YES" with
          settings := dinsert (set_value cfg name "YES").settings name "YES" } := by
    rw [read_field_negated (set_value cfg name "YES")
      (subTag fname.data (tagLit fname.data ++ "NO".data ++ [']']) text.data) name fname
      "NO".data hinv hopt hfn hsearch2]
    rfl
  refine ⟨_, { set_value cfg name "YES" with
      settings := dinsert (set_value cfg name "YES").settings name "YES" },
    hwrite, ?_, ?_, ?_⟩
  · rw [read_value_eq _ _ _ _ hfs2, strData_mk, hsearch2]
    rfl
  · rw [read_file_false _ _ _ _ _ hfs2, strData_mk]
    simp only [read_fields, hrf]
  · exact dlookup_dinsert_self _ _ _

/-- Witness for C6: entombPets/COFFIN_NO_PETS_DEFAULT on a concrete
d_init.txt. -/
theorem negated_bool_roundTrip_witness :
    dlookup cfgNeg.options "entombPets" = some Policy.negatedBool ∧
    searchTag "COFFIN_NO_PETS_DEFAULT".data
      "[COFFIN_NO_PETS_DEFAULT:NO]".data = some "NO".data ∧
    (∃ fs2 cfg2,
      write_file [("d_init.txt", "[COFFIN_NO_PETS_DEFAULT:NO]")]
        (set_value cfgNeg "entombPets" "YES") "d_init.txt" ["entombPets"] = some fs2 ∧
      read_value fs2 "d_init.txt" "COFFIN_NO_PETS_DEFAULT" = some "NO" ∧
      read_file fs2 (set_value cfgNeg "entombPets" "YES") "d_init.txt" ["entombPets"] false
        = some cfg2 ∧
      dlookup cfg2.settings "entombPets" = some "YES") :=
  ⟨by decide, by decide,
   negated_bool_roundTrip cfgNeg [("d_init.txt", "[COFFIN_NO_PETS_DEFAULT:NO]")]
     "d_init.txt" "entombPets" "COFFIN_NO_PETS_DEFAULT" "[COFFIN_NO_PETS_DEFAULT:NO]"
     "NO".data (by decide) (by decide) (by decide) (by decide) (by decide) (by decide)⟩

/-! ### Claim C4 -/

/-- Claim C4 (amended): read_file with auto_add on a file whose text is
the single token of a not-yet-registered field whose name begins with a
lowercase letter (here custom) succeeds without error and registers an
option with internal name equal to the field name, the value from the
token, Unconstrained policy, and a binding to that single file, with no
prior catalog entry. -/
theorem auto_add_lowercase_registers (cfg : DFConfig) (fs : FS) (filename : String)
    (h1 : dlookup cfg.settings "custom" = none)
    (h2 : dlookup cfg.inverse_field_names "custom" = none)
    (hfile : dlookup fs filename = some "[custom:5]") :
    ∃ cfg2, read_file fs cfg filename [] true = some cfg2 ∧
      dlookup cfg2.settings "custom" = some "5" ∧
      dlookup cfg2.options "custom" = some Policy.unconstrained ∧
      dlookup cfg2.field_names "custom" = some "custom" ∧
      dlookup cfg2.files "custom" = some [filename] := by
  have hfind : findAllPairs "[custom:5]".data = [("custom".data, "5".data)] := by decide
  have hver : version_has_option
      { cfg with field_names := dinsert cfg.field_names "custom" "custom" } "custom"
      = some true := by
    unfold version_has_option
    rw [dlookup_dinsert_self]
    rfl
  have hco : create_option cfg "custom" "custom" "5" Policy.unconstrained [filename]
      = some { cfg with
          field_names := dinsert cfg.field_names "custom" "custom",
          settings := dinsert cfg.settings "custom" "5",
          options := dinsert cfg.options "custom" Policy.unconstrained,
          files := dinsert cfg.files "custom" [filename],
          in_files := dinsert cfg.in_files [filename]
            ((dlookup cfg.in_files [filename]).getD [] ++ ["custom"]) } := by
    simp [create_option, dcontains, h1, h2, hver]
  refine ⟨{ cfg with
      field_names := dinsert cfg.field_names "custom" "custom",
      settings := dinsert cfg.settings "custom" "5",
      options := dinsert cfg.options "custom" Policy.unconstrained,
      files := dinsert cfg.files "custom" [filename],
      in_files := dinsert cfg.in_files [filename]
        ((dlookup cfg.in_files [filename]).getD [] ++ ["custom"]) },
    ?_, dlookup_dinsert_self _ _ _, dlookup_dinsert_self _ _ _,
    dlookup_dinsert_self _ _ _, dlookup_dinsert_self _ _ _⟩
  rw [read_file_true _ _ _ _ _ hfile, strData_mk, hfind]
  simp only [auto_add_all, strMk_data, hco, read_fields]

set_option maxRecDepth 8192 in
/-- Claim C4 (counterexample): the uppercase unregistered token CUSTOM
makes auto-add raise (KeyError in the version table lookup inside
create_option), so read_file does not succeed. -/
theorem auto_add_uppercase_raises :
    read_file [("raw.txt", "[CUSTOM:5]")] cfg0 "raw.txt" [] true = none := by
  decide

/-- Witness for C4 on an empty registry. -/
theorem auto_add_lowercase_registers_witness :
    dlookup cfg0.settings "custom" = none ∧
    (∃ cfg2, read_file [("raw.txt", "[custom:5]")] cfg0 "raw.txt" [] true = some cfg2 ∧
      dlookup cfg2.settings "custom" = some "5" ∧
      dlookup cfg2.options "custom" = some Policy.unconstrained ∧
      dlookup cfg2.field_names "custom" = some "custom" ∧
      dlookup cfg2.files "custom" = some ["raw.txt"]) :=
  ⟨rfl,
   auto_add_lowercase_registers cfg0 [("raw.txt", "[custom:5]")] "raw.txt"
     rfl rfl rfl⟩
